import Mathlib

/-!
Verification development for the superfine-reactive-components runtime core.

The development shallowly embeds the parts of the source that the verified
properties are about:

* `packages/core/src/state.ts` — the reactive container engine, the
  dependency-tracking observer/scheduler, batched notification, and the
  bulk props update (`updateProps`);
* `packages/core/src/component.ts` — the cache-key computation of
  `renderComponent` (component identity) and the cached-vnode reuse path;
* `packages/core/src/suspense.ts` together with the render-context
  component registry — the Suspense boundary pending counter;
* the context system (`context.ts`) — `setContextValue` / `getContextValue`
  and the boundary-lookup walk of `findNearestSuspenseBoundary`;
* the two root-attachment entry points — the tree-based `mount` with its
  `renderDepth` guard and the host-based `render` without one.

Mutable JS state is modelled as explicit state records; JS objects backing
reactive containers are association lists (first binding wins, which agrees
with own-property semantics under the no-duplicate-key invariant);
observer callbacks are deeply embedded as lists of read/write commands so
that re-running a callback is an operation on the explicit state.  The
`invocations` field of the reactivity state is a ghost event log recording,
in order, which observer callbacks were actually invoked; no source
behaviour depends on it.
-/

namespace Superfine

/-! ### Embedding of `state.ts`: records and reactive state -/

abbrev Val := Int
abbrev PropKey := Nat
abbrev ContainerId := Nat
abbrev ObsId := Nat

/-- A plain record backing a reactive container: association list from
property keys to values. -/
abbrev RecObj := List (PropKey × Val)

/-- Property lookup (`Reflect.get`): first binding wins; `none` models
`undefined` for an absent key. -/
def lookupK : RecObj → PropKey → Option Val
  | [], _ => none
  | (k2, v) :: rest, k => if k2 = k then some v else lookupK rest k

/-- Property write (`Reflect.set`): replace the first binding of the key, or
append a fresh binding. -/
def setK : RecObj → PropKey → Val → RecObj
  | [], k, v => [(k, v)]
  | (k2, v2) :: rest, k, v =>
      if k2 = k then (k, v) :: rest else (k2, v2) :: setK rest k v

/-- Property deletion (`delete target[key]`). -/
def deleteK : RecObj → PropKey → RecObj
  | [], _ => []
  | (k2, v2) :: rest, k => if k2 = k then rest else (k2, v2) :: deleteK rest k

/-- `Object.keys(record)`. -/
def keysOf (r : RecObj) : List PropKey := r.map Prod.fst

/-- The mutable module-level state of `state.ts`:
`records` are the backing targets of the reactive proxies, `listeners` is
`stateMetadata` (per container and property, the set of subscribed
callbacks, as an insertion-ordered duplicate-free list), `subs` is
`observerSubscriptions`, `pending` is `pendingNotifications` (a `Set`,
modelled as an insertion-ordered duplicate-free list), `scheduled` is
`isNotificationScheduled`, `disposed` is each observer closure's
`isDisposed` flag, `currentObserver` is the ambient tracking pointer,
`runCount` counts how often each observer has run (used to select the
deeply embedded body of a run), and `invocations` is a ghost log of the
callbacks actually invoked. -/
structure RState where
  records : ContainerId → RecObj
  listeners : ContainerId → PropKey → List ObsId
  subs : ObsId → List (ContainerId × PropKey)
  pending : List ObsId
  scheduled : Bool
  disposed : ObsId → Bool
  currentObserver : Option ObsId
  runCount : ObsId → Nat
  invocations : List ObsId

/-- JS `Set.add`: append if not already present. -/
def insertUniq (l : List ObsId) (o : ObsId) : List ObsId :=
  if o ∈ l then l else l ++ [o]

/-- `scheduleNotification(listener)`: add to the pending set and mark a
flush as scheduled. -/
def scheduleNotification (s : RState) (o : ObsId) : RState :=
  { s with pending := insertUniq s.pending o, scheduled := true }

/-- The `get` trap of `createReactiveProxy`: while a current observer is
active, record the dependency edge both in the property's listener set and
in the observer's subscription set. -/
def trackRead (s : RState) (c : ContainerId) (p : PropKey) : RState :=
  match s.currentObserver with
  | none => s
  | some o =>
      { s with
        listeners := fun c2 p2 =>
          if c2 = c then
            (if p2 = p then insertUniq (s.listeners c p) o else s.listeners c2 p2)
          else s.listeners c2 p2,
        subs := fun o2 => if o2 = o then s.subs o ++ [(c, p)] else s.subs o2 }

/-- The `set` trap of `createReactiveProxy`: strict-inequality check, then
write and schedule every listener of the property. -/
def setProp (s : RState) (c : ContainerId) (p : PropKey) (v : Val) : RState :=
  if lookupK (s.records c) p = some v then s
  else
    let s1 : RState :=
      { s with records := fun c2 => if c2 = c then setK (s.records c) p v else s.records c2 }
    (s.listeners c p).foldl scheduleNotification s1

/-- Removing one observer from one property's listener set (the body of the
loop in `clearObserverSubscriptions`). -/
def removeListenerEntry (s : RState) (c : ContainerId) (p : PropKey) (o : ObsId) : RState :=
  { s with listeners := fun c2 p2 =>
      if c2 = c then
        (if p2 = p then (s.listeners c p).filter (fun x => x ≠ o) else s.listeners c2 p2)
      else s.listeners c2 p2 }

/-- `clearObserverSubscriptions(observerFn)`: remove the observer from every
property listener set it subscribed to, then clear its subscription set. -/
def clearObserverSubscriptions (s : RState) (o : ObsId) : RState :=
  let s1 := (s.subs o).foldl (fun acc cp => removeListenerEntry acc cp.1 cp.2 o) s
  { s1 with subs := fun o2 => if o2 = o then [] else s1.subs o2 }

/-- Deep embedding of what an observer callback does on one run: a sequence
of tracked property reads and property writes. -/
inductive Cmd where
  | read (c : ContainerId) (p : PropKey)
  | write (c : ContainerId) (p : PropKey) (v : Val)
deriving DecidableEq

/-- The user-supplied callback of each observer, allowed to behave
differently on different runs (`bodies o n` is what observer `o` does on
its `n`-th run). -/
abbrev Bodies := ObsId → Nat → List Cmd

def runCmd (s : RState) : Cmd → RState
  | Cmd.read c p => trackRead s c p
  | Cmd.write c p v => setProp s c p v

def runCmds (s : RState) (cmds : List Cmd) : RState := cmds.foldl runCmd s

/-- `runObserver` from `observer(fn)`: return immediately when disposed,
otherwise clear the previous subscriptions, set the current-observer
pointer, run the user callback, and restore the pointer.  The ghost
`invocations` log records the actual invocation. -/
def runObserver (bodies : Bodies) (s : RState) (o : ObsId) : RState :=
  if s.disposed o then s
  else
    let body := bodies o (s.runCount o)
    let s0 : RState := { s with
      invocations := s.invocations ++ [o],
      runCount := fun o2 => if o2 = o then s.runCount o + 1 else s.runCount o2 }
    let s1 := clearObserverSubscriptions s0 o
    let s2 : RState := { s1 with currentObserver := some o }
    let s3 := runCmds s2 body
    { s3 with currentObserver := s1.currentObserver }

/-- The microtask body of `scheduleNotification`: copy the pending set,
clear it and the scheduled flag before any callback runs, then notify each
captured listener in order. -/
def flush (bodies : Bodies) (s : RState) : RState :=
  let toRun := s.pending
  let s0 : RState := { s with pending := [], scheduled := false }
  toRun.foldl (runObserver bodies) s0

/-- The disposer returned by `observer(fn)`: set the `isDisposed` flag and
clear all subscriptions. -/
def disposeObserver (s : RState) (o : ObsId) : RState :=
  let s1 : RState := { s with disposed := fun o2 => if o2 = o then true else s.disposed o2 }
  clearObserverSubscriptions s1 o

/-- The deletion step of `updateProps` (delete the key, then schedule every
listener of the key). -/
def deleteProp (s : RState) (c : ContainerId) (k : PropKey) : RState :=
  let s1 : RState :=
    { s with records := fun c2 => if c2 = c then deleteK (s.records c) k else s.records c2 }
  (s.listeners c k).foldl scheduleNotification s1

/-- `updateProps(proxy, newProps)`: snapshot the existing and new key sets,
write (and notify) every key of `newProps` whose value strictly differs,
then delete (and notify) every snapshotted key absent from `newProps`. -/
def updateProps (s : RState) (c : ContainerId) (newProps : RecObj) : RState :=
  let existingKeys := keysOf (s.records c)
  let newKeys := keysOf newProps
  let s1 := newProps.foldl (fun acc kv => setProp acc c kv.1 kv.2) s
  existingKeys.foldl (fun acc k => if k ∈ newKeys then acc else deleteProp acc c k) s1

/-- The pristine module state: no containers populated, no listeners, no
pending notifications. -/
def initState : RState :=
  { records := fun _ => [], listeners := fun _ _ => [], subs := fun _ => [],
    pending := [], scheduled := false, disposed := fun _ => false,
    currentObserver := none, runCount := fun _ => 0, invocations := [] }

/-- Pairing invariant of `state.ts`: every listener-set membership of an
observer is mirrored in its subscription set (maintained because the `get`
trap always records both together). -/
def edgeInv (s : RState) (o : ObsId) : Prop :=
  ∀ c p, o ∈ s.listeners c p → (c, p) ∈ s.subs o

/-! ### Basic lemmas about the reactivity embedding -/

theorem foldl_proj_invariant {α β : Type} (g : RState → β → RState) (f : RState → α)
    (hf : ∀ s b, f (g s b) = f s) :
    ∀ (L : List β) (s : RState), f (L.foldl g s) = f s := by
  intro L
  induction L with
  | nil => intro s; rfl
  | cons b L ih => intro s; rw [List.foldl_cons, ih, hf]

theorem mem_insertUniq (l : List ObsId) (a o : ObsId) :
    o ∈ insertUniq l a ↔ o ∈ l ∨ o = a := by
  unfold insertUniq
  split
  · next h => constructor
              · exact fun hm => Or.inl hm
              · rintro (hm | rfl) <;> assumption
  · simp [List.mem_append]

theorem nodup_insertUniq (l : List ObsId) (a : ObsId) (h : l.Nodup) :
    (insertUniq l a).Nodup := by
  unfold insertUniq
  split
  · exact h
  · next hna =>
      rw [List.nodup_append]
      exact ⟨h, List.nodup_singleton a, by
        intro x hx hx2
        rw [List.mem_singleton] at hx2
        exact hna (hx2 ▸ hx)⟩

theorem scheduleNotification_records (s : RState) (o : ObsId) :
    (scheduleNotification s o).records = s.records := rfl

theorem scheduleNotification_listeners (s : RState) (o : ObsId) :
    (scheduleNotification s o).listeners = s.listeners := rfl

theorem scheduleNotification_subs (s : RState) (o : ObsId) :
    (scheduleNotification s o).subs = s.subs := rfl

theorem scheduleNotification_disposed (s : RState) (o : ObsId) :
    (scheduleNotification s o).disposed = s.disposed := rfl

theorem scheduleNotification_currentObserver (s : RState) (o : ObsId) :
    (scheduleNotification s o).currentObserver = s.currentObserver := rfl

theorem scheduleNotification_runCount (s : RState) (o : ObsId) :
    (scheduleNotification s o).runCount = s.runCount := rfl

theorem scheduleNotification_invocations (s : RState) (o : ObsId) :
    (scheduleNotification s o).invocations = s.invocations := rfl

theorem mem_foldl_schedule (L : List ObsId) :
    ∀ (s : RState) (o : ObsId),
      (o ∈ (L.foldl scheduleNotification s).pending ↔ o ∈ s.pending ∨ o ∈ L) := by
  induction L with
  | nil => intro s o; simp
  | cons a L ih =>
      intro s o
      rw [List.foldl_cons, ih]
      show (o ∈ insertUniq s.pending a ∨ o ∈ L) ↔ _
      rw [mem_insertUniq]
      simp [or_assoc, List.mem_cons]

theorem nodup_foldl_schedule (L : List ObsId) :
    ∀ s : RState, s.pending.Nodup → ((L.foldl scheduleNotification s).pending).Nodup := by
  induction L with
  | nil => intro s h; exact h
  | cons a L ih =>
      intro s h
      rw [List.foldl_cons]
      exact ih _ (nodup_insertUniq _ _ h)

theorem setProp_listeners (s : RState) (c : ContainerId) (p : PropKey) (v : Val) :
    (setProp s c p v).listeners = s.listeners := by
  unfold setProp
  split
  · rfl
  · exact foldl_proj_invariant scheduleNotification RState.listeners (fun s o => rfl) _ _

theorem setProp_subs (s : RState) (c : ContainerId) (p : PropKey) (v : Val) :
    (setProp s c p v).subs = s.subs := by
  unfold setProp
  split
  · rfl
  · exact foldl_proj_invariant scheduleNotification RState.subs (fun s o => rfl) _ _

theorem setProp_disposed (s : RState) (c : ContainerId) (p : PropKey) (v : Val) :
    (setProp s c p v).disposed = s.disposed := by
  unfold setProp
  split
  · rfl
  · exact foldl_proj_invariant scheduleNotification RState.disposed (fun s o => rfl) _ _

theorem setProp_currentObserver (s : RState) (c : ContainerId) (p : PropKey) (v : Val) :
    (setProp s c p v).currentObserver = s.currentObserver := by
  unfold setProp
  split
  · rfl
  · exact foldl_proj_invariant scheduleNotification RState.currentObserver (fun s o => rfl) _ _

theorem setProp_runCount (s : RState) (c : ContainerId) (p : PropKey) (v : Val) :
    (setProp s c p v).runCount = s.runCount := by
  unfold setProp
  split
  · rfl
  · exact foldl_proj_invariant scheduleNotification RState.runCount (fun s o => rfl) _ _

theorem setProp_invocations (s : RState) (c : ContainerId) (p : PropKey) (v : Val) :
    (setProp s c p v).invocations = s.invocations := by
  unfold setProp
  split
  · rfl
  · exact foldl_proj_invariant scheduleNotification RState.invocations (fun s o => rfl) _ _

/-- Writing a value equal (by strict equality) to the current one leaves
the backing record unchanged; otherwise the record is updated with `setK`.
Either way the resulting record is `setK` of the old one. -/
theorem setK_self (r : RecObj) (p : PropKey) (v : Val) (h : lookupK r p = some v) :
    setK r p v = r := by
  induction r with
  | nil => simp [lookupK] at h
  | cons kv rest ih =>
      unfold lookupK at h
      unfold setK
      split
      · next heq =>
          rw [if_pos heq] at h
          injection h with h
          rw [← heq, ← h]
      · next hne =>
          rw [if_neg hne] at h
          rw [ih h]

theorem setProp_records (s : RState) (c : ContainerId) (p : PropKey) (v : Val) :
    (setProp s c p v).records =
      fun c2 => if c2 = c then setK (s.records c) p v else s.records c2 := by
  unfold setProp
  split
  · next h =>
      funext c2
      split
      · next hc => rw [hc, setK_self _ _ _ h]
      · rfl
  · exact foldl_proj_invariant scheduleNotification RState.records (fun s o => rfl) _ _

theorem setProp_pending_mem (s : RState) (c : ContainerId) (p : PropKey) (v : Val) (o : ObsId) :
    (o ∈ (setProp s c p v).pending ↔
      o ∈ s.pending ∨ (o ∈ s.listeners c p ∧ lookupK (s.records c) p ≠ some v)) := by
  unfold setProp
  split
  · next h => simp [h]
  · next h =>
      rw [mem_foldl_schedule]
      simp [h]

theorem setProp_pending_nodup (s : RState) (c : ContainerId) (p : PropKey) (v : Val)
    (h : s.pending.Nodup) : ((setProp s c p v).pending).Nodup := by
  unfold setProp
  split
  · exact h
  · exact nodup_foldl_schedule _ _ h

theorem trackRead_records (s : RState) (c : ContainerId) (p : PropKey) :
    (trackRead s c p).records = s.records := by
  unfold trackRead; cases s.currentObserver <;> rfl

theorem trackRead_pending (s : RState) (c : ContainerId) (p : PropKey) :
    (trackRead s c p).pending = s.pending := by
  unfold trackRead; cases s.currentObserver <;> rfl

theorem trackRead_disposed (s : RState) (c : ContainerId) (p : PropKey) :
    (trackRead s c p).disposed = s.disposed := by
  unfold trackRead; cases s.currentObserver <;> rfl

theorem trackRead_currentObserver (s : RState) (c : ContainerId) (p : PropKey) :
    (trackRead s c p).currentObserver = s.currentObserver := by
  unfold trackRead
  rcases h : s.currentObserver with _ | o
  · exact h
  · rfl

theorem trackRead_runCount (s : RState) (c : ContainerId) (p : PropKey) :
    (trackRead s c p).runCount = s.runCount := by
  unfold trackRead; cases s.currentObserver <;> rfl

theorem trackRead_invocations (s : RState) (c : ContainerId) (p : PropKey) :
    (trackRead s c p).invocations = s.invocations := by
  unfold trackRead; cases s.currentObserver <;> rfl

theorem removeListenerEntry_proj (s : RState) (c : ContainerId) (p : PropKey) (o : ObsId) :
    (removeListenerEntry s c p o).records = s.records ∧
    (removeListenerEntry s c p o).subs = s.subs ∧
    (removeListenerEntry s c p o).pending = s.pending ∧
    (removeListenerEntry s c p o).disposed = s.disposed ∧
    (removeListenerEntry s c p o).currentObserver = s.currentObserver ∧
    (removeListenerEntry s c p o).runCount = s.runCount ∧
    (removeListenerEntry s c p o).invocations = s.invocations :=
  ⟨rfl, rfl, rfl, rfl, rfl, rfl, rfl⟩

theorem clear_records (s : RState) (o : ObsId) :
    (clearObserverSubscriptions s o).records = s.records := by
  show (List.foldl (fun (acc : RState) (cp : ContainerId × PropKey) =>
      removeListenerEntry acc cp.1 cp.2 o) s (s.subs o)).records = s.records
  exact foldl_proj_invariant (fun (acc : RState) (cp : ContainerId × PropKey) =>
    removeListenerEntry acc cp.1 cp.2 o) RState.records (fun s cp => rfl) _ _

theorem clear_pending (s : RState) (o : ObsId) :
    (clearObserverSubscriptions s o).pending = s.pending := by
  show (List.foldl (fun (acc : RState) (cp : ContainerId × PropKey) =>
      removeListenerEntry acc cp.1 cp.2 o) s (s.subs o)).pending = s.pending
  exact foldl_proj_invariant (fun (acc : RState) (cp : ContainerId × PropKey) =>
    removeListenerEntry acc cp.1 cp.2 o) RState.pending (fun s cp => rfl) _ _

theorem clear_disposed (s : RState) (o : ObsId) :
    (clearObserverSubscriptions s o).disposed = s.disposed := by
  show (List.foldl (fun (acc : RState) (cp : ContainerId × PropKey) =>
      removeListenerEntry acc cp.1 cp.2 o) s (s.subs o)).disposed = s.disposed
  exact foldl_proj_invariant (fun (acc : RState) (cp : ContainerId × PropKey) =>
    removeListenerEntry acc cp.1 cp.2 o) RState.disposed (fun s cp => rfl) _ _

theorem clear_currentObserver (s : RState) (o : ObsId) :
    (clearObserverSubscriptions s o).currentObserver = s.currentObserver := by
  show (List.foldl (fun (acc : RState) (cp : ContainerId × PropKey) =>
      removeListenerEntry acc cp.1 cp.2 o) s (s.subs o)).currentObserver = s.currentObserver
  exact foldl_proj_invariant (fun (acc : RState) (cp : ContainerId × PropKey) =>
    removeListenerEntry acc cp.1 cp.2 o) RState.currentObserver (fun s cp => rfl) _ _

theorem clear_runCount (s : RState) (o : ObsId) :
    (clearObserverSubscriptions s o).runCount = s.runCount := by
  show (List.foldl (fun (acc : RState) (cp : ContainerId × PropKey) =>
      removeListenerEntry acc cp.1 cp.2 o) s (s.subs o)).runCount = s.runCount
  exact foldl_proj_invariant (fun (acc : RState) (cp : ContainerId × PropKey) =>
    removeListenerEntry acc cp.1 cp.2 o) RState.runCount (fun s cp => rfl) _ _

theorem clear_invocations (s : RState) (o : ObsId) :
    (clearObserverSubscriptions s o).invocations = s.invocations := by
  show (List.foldl (fun (acc : RState) (cp : ContainerId × PropKey) =>
      removeListenerEntry acc cp.1 cp.2 o) s (s.subs o)).invocations = s.invocations
  exact foldl_proj_invariant (fun (acc : RState) (cp : ContainerId × PropKey) =>
    removeListenerEntry acc cp.1 cp.2 o) RState.invocations (fun s cp => rfl) _ _

theorem clear_subs_self (s : RState) (o : ObsId) :
    (clearObserverSubscriptions s o).subs o = [] := by
  unfold clearObserverSubscriptions
  simp

theorem mem_foldl_remove (o x : ObsId) :
    ∀ (L : List (ContainerId × PropKey)) (s : RState) (c : ContainerId) (p : PropKey),
      (x ∈ (L.foldl (fun acc cp => removeListenerEntry acc cp.1 cp.2 o) s).listeners c p ↔
        x ∈ s.listeners c p ∧ ¬(x = o ∧ (c, p) ∈ L)) := by
  intro L
  induction L with
  | nil => intro s c p; simp
  | cons cp L ih =>
      obtain ⟨c1, p1⟩ := cp
      intro s c p
      rw [List.foldl_cons, ih]
      show x ∈ (removeListenerEntry s c1 p1 o).listeners c p ∧ _ ↔ _
      unfold removeListenerEntry
      dsimp only
      by_cases h1 : c = c1
      · by_cases h2 : p = p1
        · subst h1; subst h2
          rw [if_pos rfl, if_pos rfl]
          simp [List.mem_filter, List.mem_cons]
          tauto
        · subst h1
          rw [if_pos rfl, if_neg h2]
          have hne : ¬((c, p) = (c, p1)) := by simp [h2]
          simp [List.mem_cons, hne]
      · rw [if_neg h1]
        have hne : ¬((c, p) = (c1, p1)) := by simp [Prod.ext_iff, h1]
        simp [List.mem_cons, hne]

theorem mem_clear_listeners (s : RState) (o x : ObsId) (c : ContainerId) (p : PropKey) :
    (x ∈ (clearObserverSubscriptions s o).listeners c p ↔
      x ∈ s.listeners c p ∧ ¬(x = o ∧ (c, p) ∈ s.subs o)) := by
  show x ∈ (List.foldl _ s (s.subs o)).listeners c p ↔ _
  exact mem_foldl_remove o x _ s c p

/-- After its subscriptions are cleared, an observer with the pairing
invariant is in no listener set at all. -/
theorem clear_removes_all (s : RState) (o : ObsId) (hinv : edgeInv s o) :
    ∀ c p, o ∉ (clearObserverSubscriptions s o).listeners c p := by
  intro c p hmem
  rw [mem_clear_listeners] at hmem
  exact hmem.2 ⟨rfl, hinv c p hmem.1⟩

theorem runCmd_disposed (s : RState) (cmd : Cmd) : (runCmd s cmd).disposed = s.disposed := by
  cases cmd with
  | read c p => exact trackRead_disposed s c p
  | write c p v => exact setProp_disposed s c p v

theorem runCmd_currentObserver (s : RState) (cmd : Cmd) :
    (runCmd s cmd).currentObserver = s.currentObserver := by
  cases cmd with
  | read c p => exact trackRead_currentObserver s c p
  | write c p v => exact setProp_currentObserver s c p v

theorem runCmd_runCount (s : RState) (cmd : Cmd) : (runCmd s cmd).runCount = s.runCount := by
  cases cmd with
  | read c p => exact trackRead_runCount s c p
  | write c p v => exact setProp_runCount s c p v

theorem runCmd_invocations (s : RState) (cmd : Cmd) :
    (runCmd s cmd).invocations = s.invocations := by
  cases cmd with
  | read c p => exact trackRead_invocations s c p
  | write c p v => exact setProp_invocations s c p v

theorem runCmds_disposed (s : RState) (cmds : List Cmd) :
    (runCmds s cmds).disposed = s.disposed :=
  foldl_proj_invariant runCmd RState.disposed runCmd_disposed cmds s

theorem runCmds_currentObserver (s : RState) (cmds : List Cmd) :
    (runCmds s cmds).currentObserver = s.currentObserver :=
  foldl_proj_invariant runCmd RState.currentObserver runCmd_currentObserver cmds s

theorem runCmds_runCount (s : RState) (cmds : List Cmd) :
    (runCmds s cmds).runCount = s.runCount :=
  foldl_proj_invariant runCmd RState.runCount runCmd_runCount cmds s

theorem runCmds_invocations (s : RState) (cmds : List Cmd) :
    (runCmds s cmds).invocations = s.invocations :=
  foldl_proj_invariant runCmd RState.invocations runCmd_invocations cmds s

theorem runObserver_disposed (bodies : Bodies) (s : RState) (o : ObsId) :
    (runObserver bodies s o).disposed = s.disposed := by
  unfold runObserver
  split
  · rfl
  · show (runCmds _ _).disposed = s.disposed
    rw [runCmds_disposed]
    show (clearObserverSubscriptions _ _).disposed = s.disposed
    rw [clear_disposed]

theorem runObserver_invocations (bodies : Bodies) (s : RState) (o : ObsId) :
    (runObserver bodies s o).invocations =
      s.invocations ++ (if s.disposed o then [] else [o]) := by
  unfold runObserver
  split
  · exact (List.append_nil _).symm
  · show (runCmds _ _).invocations = _
    rw [runCmds_invocations]
    show (clearObserverSubscriptions _ _).invocations = _
    rw [clear_invocations]

theorem foldl_runObserver_invocations (bodies : Bodies) :
    ∀ (L : List ObsId) (s : RState),
      (L.foldl (runObserver bodies) s).invocations =
        s.invocations ++ L.filter (fun i => !s.disposed i) := by
  intro L
  induction L with
  | nil => intro s; simp
  | cons a L ih =>
      intro s
      rw [List.foldl_cons, ih, runObserver_invocations, runObserver_disposed]
      by_cases h : s.disposed a = true
      · simp [h, List.filter_cons]
      · simp [h, List.filter_cons]

theorem flush_invocations (bodies : Bodies) (s : RState) :
    (flush bodies s).invocations =
      s.invocations ++ s.pending.filter (fun i => !s.disposed i) := by
  unfold flush
  exact foldl_runObserver_invocations bodies s.pending _

/-! ### Claim C3: batched notification -/

/-- A turn of property writes (event handlers and the like): each write goes
through the `set` trap. -/
def applyWrites (s : RState) (ws : List (ContainerId × PropKey × Val)) : RState :=
  ws.foldl (fun acc w => setProp acc w.1 w.2.1 w.2.2) s

/-- The pure effect of a sequence of writes on the backing records. -/
def writeRecords (recs : ContainerId → RecObj) (ws : List (ContainerId × PropKey × Val)) :
    ContainerId → RecObj :=
  ws.foldl (fun rs w => fun c2 => if c2 = w.1 then setK (rs w.1) w.2.1 w.2.2 else rs c2) recs

theorem applyWrites_records :
    ∀ (ws : List (ContainerId × PropKey × Val)) (s : RState),
      (applyWrites s ws).records = writeRecords s.records ws := by
  intro ws
  induction ws with
  | nil => intro s; rfl
  | cons w ws ih =>
      intro s
      show (applyWrites (setProp s w.1 w.2.1 w.2.2) ws).records = _
      rw [ih, setProp_records]
      rfl

theorem applyWrites_invocations (ws : List (ContainerId × PropKey × Val)) (s : RState) :
    (applyWrites s ws).invocations = s.invocations :=
  foldl_proj_invariant (fun (acc : RState) (w : ContainerId × PropKey × Val) =>
    setProp acc w.1 w.2.1 w.2.2) RState.invocations
    (fun s w => setProp_invocations s w.1 w.2.1 w.2.2) ws s

theorem applyWrites_disposed (ws : List (ContainerId × PropKey × Val)) (s : RState) :
    (applyWrites s ws).disposed = s.disposed :=
  foldl_proj_invariant (fun (acc : RState) (w : ContainerId × PropKey × Val) =>
    setProp acc w.1 w.2.1 w.2.2) RState.disposed
    (fun s w => setProp_disposed s w.1 w.2.1 w.2.2) ws s

theorem applyWrites_pending_nodup :
    ∀ (ws : List (ContainerId × PropKey × Val)) (s : RState),
      s.pending.Nodup → ((applyWrites s ws).pending).Nodup := by
  intro ws
  induction ws with
  | nil => intro s h; exact h
  | cons w ws ih =>
      intro s h
      exact ih _ (setProp_pending_nodup s w.1 w.2.1 w.2.2 h)

/-- C3: for every reactive container and every finite sequence of property
writes performed within one turn, no subscribed callback is invoked during
the turn; at the turn boundary the backing records reflect the joint effect
of all the writes; the pending notification set holds each callback at most
once (a callback enqueued multiple times is deduplicated); the flush at the
turn boundary invokes exactly the callbacks captured in the pending set at
its start — so callbacks scheduled during the flush defer to the next
flush — and hence every distinct callback runs at most once after the
turn, observing the final effect of all the writes. -/
theorem c3_batched_notification (bodies : Bodies) (s : RState)
    (ws : List (ContainerId × PropKey × Val)) (hnd : s.pending.Nodup) :
    ((applyWrites s ws).invocations = s.invocations) ∧
    ((applyWrites s ws).records = writeRecords s.records ws) ∧
    ((applyWrites s ws).pending).Nodup ∧
    ((flush bodies (applyWrites s ws)).invocations =
      s.invocations ++
        ((applyWrites s ws).pending).filter (fun i => !(applyWrites s ws).disposed i)) ∧
    (∀ o : ObsId,
      (flush bodies (applyWrites s ws)).invocations.count o ≤ s.invocations.count o + 1) := by
  have hinv := applyWrites_invocations ws s
  have hnod := applyWrites_pending_nodup ws s hnd
  refine ⟨hinv, applyWrites_records ws s, hnod, ?_, ?_⟩
  · rw [flush_invocations, hinv]
  · intro o
    rw [flush_invocations, hinv, List.count_append]
    have h1 : (((applyWrites s ws).pending).filter
        (fun i => !(applyWrites s ws).disposed i)).count o ≤
        ((applyWrites s ws).pending).count o :=
      (List.filter_sublist _).count_le o
    have h2 : ((applyWrites s ws).pending).count o ≤ 1 :=
      List.nodup_iff_count_le_one.mp hnod o
    omega

/-- Observer bodies used by concrete witness scenarios: every observer is a
no-op callback. -/
def wBodies : Bodies := fun _ _ => []

/-- Concrete reactivity state for the C3 witness: one container holding one
property with value `0`, observed by callback `0`. -/
def c3State : RState :=
  { records := fun c => if c = 0 then [(0, 0)] else [],
    listeners := fun c p => if c = 0 then (if p = 0 then [0] else []) else [],
    subs := fun o => if o = 0 then [(0, 0)] else [],
    pending := [], scheduled := false, disposed := fun _ => false,
    currentObserver := none, runCount := fun _ => 0, invocations := [] }

/-- Concrete turn for the C3 witness: three writes, two of them to the same
observed property. -/
def c3Writes : List (ContainerId × PropKey × Val) := [(0, 0, 5), (0, 0, 6), (0, 1, 7)]

theorem c3_batched_notification_witness :
    (c3State.pending.Nodup) ∧
    (((applyWrites c3State c3Writes).invocations = c3State.invocations) ∧
    ((applyWrites c3State c3Writes).records = writeRecords c3State.records c3Writes) ∧
    ((applyWrites c3State c3Writes).pending).Nodup ∧
    ((flush wBodies (applyWrites c3State c3Writes)).invocations =
      c3State.invocations ++
        ((applyWrites c3State c3Writes).pending).filter
          (fun i => !(applyWrites c3State c3Writes).disposed i)) ∧
    (∀ o : ObsId,
      (flush wBodies (applyWrites c3State c3Writes)).invocations.count o ≤
        c3State.invocations.count o + 1)) :=
  ⟨List.nodup_nil, c3_batched_notification wBodies c3State c3Writes List.nodup_nil⟩

/-! ### Claim C4: stale-edge removal before each observer re-run -/

/-- Observer bodies for the C4 scenario: observer `0` reads property `A`
(container 0, key 0) on its first run and only property `B` (container 0,
key 1) on every later run. -/
def c4Bodies : Bodies :=
  fun o n => if o = 0 then (if n = 0 then [Cmd.read 0 0] else [Cmd.read 0 1]) else []

/-- Initial state for the C4 scenario: one container with properties `A`
(key 0) and `B` (key 1), both `0`. -/
def c4State0 : RState :=
  { initState with records := fun c => if c = 0 then [(0, 0), (1, 0)] else [] }

/-- Registration run of `observer(fn)` (runs the callback immediately). -/
def c4State1 : RState := runObserver c4Bodies c4State0 0

/-- A turn that writes a changed value to property `A`. -/
def c4State2 : RState := setProp c4State1 0 0 1

/-- The batched flush: the observer re-runs, clearing its previous edges
first, and this time reads only property `B`. -/
def c4State3 : RState := flush c4Bodies c4State2

/-- C4: before the observer re-runs, all dependency edges recorded on its
previous run are removed: after a run that read property `A` and a re-run
that read only property `B`, the observer is no longer in the listener set
of `A`, is in the listener set of `B`, and its subscription set holds
exactly the `B` edge; consequently any subsequent changed write to `B`
schedules it, while a subsequent write to `A` alone never schedules it. -/
theorem c4_stale_edge_removal (vB vA : Val) (hvB : vB ≠ 0) :
    (0 ∉ c4State3.listeners 0 0) ∧ (0 ∈ c4State3.listeners 0 1) ∧
    (c4State3.subs 0 = [(0, 1)]) ∧
    (0 ∈ (setProp c4State3 0 1 vB).pending) ∧
    (0 ∉ (setProp c4State3 0 0 vA).pending) := by
  have h1 : lookupK (c4State3.records 0) 1 = some 0 := by decide
  refine ⟨by decide, by decide, by decide, ?_, ?_⟩
  · rw [setProp_pending_mem]
    refine Or.inr ⟨by decide, ?_⟩
    rw [h1]
    intro h
    exact hvB (Option.some.inj h).symm
  · intro hmem
    rw [setProp_pending_mem] at hmem
    rcases hmem with h | ⟨h, _⟩
    · exact absurd h (by decide)
    · exact absurd h (by decide)

theorem c4_stale_edge_removal_witness :
    ((5 : Val) ≠ 0) ∧
    ((0 ∉ c4State3.listeners 0 0) ∧ (0 ∈ c4State3.listeners 0 1) ∧
    (c4State3.subs 0 = [(0, 1)]) ∧
    (0 ∈ (setProp c4State3 0 1 5).pending) ∧
    (0 ∉ (setProp c4State3 0 0 9).pending)) :=
  ⟨by decide, c4_stale_edge_removal 5 9 (by decide)⟩

/-! ### Claim C7: disposing an observer subscription is permanent -/

theorem deleteProp_invocations (s : RState) (c : ContainerId) (k : PropKey) :
    (deleteProp s c k).invocations = s.invocations := by
  show (List.foldl scheduleNotification _ _).invocations = s.invocations
  exact foldl_proj_invariant scheduleNotification RState.invocations (fun s o => rfl) _ _

theorem deleteProp_disposed (s : RState) (c : ContainerId) (k : PropKey) :
    (deleteProp s c k).disposed = s.disposed := by
  show (List.foldl scheduleNotification _ _).disposed = s.disposed
  exact foldl_proj_invariant scheduleNotification RState.disposed (fun s o => rfl) _ _

theorem updateProps_invocations (s : RState) (c : ContainerId) (np : RecObj) :
    (updateProps s c np).invocations = s.invocations := by
  unfold updateProps
  rw [foldl_proj_invariant
    (fun (acc : RState) (k : PropKey) => if k ∈ keysOf np then acc else deleteProp acc c k)
    RState.invocations
    (fun s k => by by_cases h : k ∈ keysOf np <;> simp [h, deleteProp_invocations]) _ _]
  exact foldl_proj_invariant
    (fun (acc : RState) (kv : PropKey × Val) => setProp acc c kv.1 kv.2)
    RState.invocations (fun s kv => setProp_invocations s c kv.1 kv.2) _ _

theorem updateProps_disposed (s : RState) (c : ContainerId) (np : RecObj) :
    (updateProps s c np).disposed = s.disposed := by
  unfold updateProps
  rw [foldl_proj_invariant
    (fun (acc : RState) (k : PropKey) => if k ∈ keysOf np then acc else deleteProp acc c k)
    RState.disposed
    (fun s k => by by_cases h : k ∈ keysOf np <;> simp [h, deleteProp_disposed]) _ _]
  exact foldl_proj_invariant
    (fun (acc : RState) (kv : PropKey × Val) => setProp acc c kv.1 kv.2)
    RState.disposed (fun s kv => setProp_disposed s c kv.1 kv.2) _ _

theorem flush_disposed (bodies : Bodies) (s : RState) :
    (flush bodies s).disposed = s.disposed := by
  unfold flush
  exact foldl_proj_invariant (runObserver bodies) RState.disposed
    (runObserver_disposed bodies) _ _

theorem disposeObserver_disposed_self (s : RState) (o : ObsId) :
    (disposeObserver s o).disposed o = true := by
  unfold disposeObserver
  rw [clear_disposed]
  simp

theorem disposeObserver_disposed_mono (s : RState) (i o : ObsId) (h : s.disposed o = true) :
    (disposeObserver s i).disposed o = true := by
  unfold disposeObserver
  rw [clear_disposed]
  dsimp only
  by_cases hio : o = i <;> simp [hio, h]

theorem disposeObserver_invocations (s : RState) (i : ObsId) :
    (disposeObserver s i).invocations = s.invocations := by
  unfold disposeObserver
  rw [clear_invocations]

theorem count_filter_disposed (s : RState) (o : ObsId) (l : List ObsId)
    (h : s.disposed o = true) :
    (l.filter (fun i => !s.disposed i)).count o = 0 := by
  rw [List.count_eq_zero]
  intro hmem
  rw [List.mem_filter] at hmem
  rw [h] at hmem
  simp at hmem

/-- The system-level operations that can follow a disposal: property writes,
bulk props updates, notification flushes, and further disposals. -/
inductive SysOp where
  | write (c : ContainerId) (p : PropKey) (v : Val)
  | bulkUpdate (c : ContainerId) (np : RecObj)
  | flushOp
  | disposeOp (i : ObsId)

def applySysOp (bodies : Bodies) (s : RState) : SysOp → RState
  | SysOp.write c p v => setProp s c p v
  | SysOp.bulkUpdate c np => updateProps s c np
  | SysOp.flushOp => flush bodies s
  | SysOp.disposeOp i => disposeObserver s i

theorem applySysOp_preserves (bodies : Bodies) (s : RState) (op : SysOp) (o : ObsId)
    (hd : s.disposed o = true) :
    ((applySysOp bodies s op).disposed o = true) ∧
    ((applySysOp bodies s op).invocations.count o = s.invocations.count o) := by
  cases op with
  | write c p v => exact ⟨by rw [applySysOp, setProp_disposed]; exact hd,
      by rw [applySysOp, setProp_invocations]⟩
  | bulkUpdate c np => exact ⟨by rw [applySysOp, updateProps_disposed]; exact hd,
      by rw [applySysOp, updateProps_invocations]⟩
  | flushOp =>
      refine ⟨by rw [applySysOp, flush_disposed]; exact hd, ?_⟩
      rw [applySysOp, flush_invocations, List.count_append,
        count_filter_disposed s o _ hd]
      exact Nat.add_zero _
  | disposeOp i => exact ⟨disposeObserver_disposed_mono s i o hd,
      by rw [applySysOp, disposeObserver_invocations]⟩

theorem sysOps_frozen (bodies : Bodies) (o : ObsId) :
    ∀ (ops : List SysOp) (s : RState), s.disposed o = true →
      ((ops.foldl (applySysOp bodies) s).disposed o = true) ∧
      ((ops.foldl (applySysOp bodies) s).invocations.count o = s.invocations.count o) := by
  intro ops
  induction ops with
  | nil => intro s h; exact ⟨h, rfl⟩
  | cons op ops ih =>
      intro s h
      have hop := applySysOp_preserves bodies s op o h
      have hrest := ih _ hop.1
      exact ⟨hrest.1, by rw [List.foldl_cons, hrest.2, hop.2]⟩

/-- C7: once an observer subscription has been disposed, the tracked
callback never runs again: the disposal removes every one of its dependency
edges; a pending flush entry for it is a no-op (`runObserver` on a disposed
observer returns the state unchanged, invoking nothing and recording no
edges); and across any subsequent sequence of writes, bulk props updates,
flushes (including a flush for which the callback was already in the
pending set when the disposer ran) and further disposals, its invocation
count never increases. -/
theorem c7_dispose_permanent (bodies : Bodies) (s : RState) (o : ObsId) (hinv : edgeInv s o) :
    (∀ c p, o ∉ (disposeObserver s o).listeners c p) ∧
    (∀ t : RState, t.disposed o = true → runObserver bodies t o = t) ∧
    (∀ ops : List SysOp,
      ((ops.foldl (applySysOp bodies) (disposeObserver s o)).invocations.count o =
        (disposeObserver s o).invocations.count o)) := by
  refine ⟨?_, ?_, ?_⟩
  · intro c p
    exact clear_removes_all
      { s with disposed := fun o2 => if o2 = o then true else s.disposed o2 } o
      (fun c p h => hinv c p h) c p
  · intro t h
    unfold runObserver
    rw [if_pos h]
  · intro ops
    exact (sysOps_frozen bodies o ops _ (disposeObserver_disposed_self s o)).2

/-- Concrete reactivity state for the C7 witness: observer `0` subscribed
to property `(0, 0)` and already sitting in the pending notification set
when the disposer runs. -/
def c7State : RState :=
  { records := fun c => if c = 0 then [(0, 0)] else [],
    listeners := fun c p => if c = 0 then (if p = 0 then [0] else []) else [],
    subs := fun o => if o = 0 then [(0, 0)] else [],
    pending := [0], scheduled := true, disposed := fun _ => false,
    currentObserver := none, runCount := fun _ => 0, invocations := [] }

theorem c7State_edgeInv : edgeInv c7State 0 := by
  intro c p h
  unfold c7State at h ⊢
  dsimp only at h ⊢
  by_cases hc : c = 0
  · by_cases hp : p = 0
    · subst hc; subst hp; simp
    · rw [if_pos hc, if_neg hp] at h
      exact absurd h (List.not_mem_nil 0)
  · rw [if_neg hc] at h
    exact absurd h (List.not_mem_nil 0)

theorem c7_dispose_permanent_witness :
    (edgeInv c7State 0) ∧
    ((∀ c p, 0 ∉ (disposeObserver c7State 0).listeners c p) ∧
    (∀ t : RState, t.disposed 0 = true → runObserver wBodies t 0 = t) ∧
    (∀ ops : List SysOp,
      ((ops.foldl (applySysOp wBodies) (disposeObserver c7State 0)).invocations.count 0 =
        (disposeObserver c7State 0).invocations.count 0))) :=
  ⟨c7State_edgeInv, c7_dispose_permanent wBodies c7State 0 c7State_edgeInv⟩

/-! ### Claim C6: exact effect of the bulk props update -/

theorem lookup_eq_none_iff (r : RecObj) (k : PropKey) :
    lookupK r k = none ↔ k ∉ keysOf r := by
  induction r with
  | nil => simp [lookupK, keysOf]
  | cons kv rest ih =>
      obtain ⟨k1, v1⟩ := kv
      unfold lookupK
      by_cases h : k1 = k
      · subst h
        simp [keysOf]
      · rw [if_neg h, ih]
        simp [keysOf, Ne.symm h]

theorem lookup_setK_same (r : RecObj) (k : PropKey) (v : Val) :
    lookupK (setK r k v) k = some v := by
  induction r with
  | nil => simp [setK, lookupK]
  | cons kv rest ih =>
      obtain ⟨k1, v1⟩ := kv
      unfold setK
      by_cases h : k1 = k
      · rw [if_pos h]
        simp [lookupK]
      · rw [if_neg h]
        unfold lookupK
        rw [if_neg h]
        exact ih

theorem lookup_setK_other (r : RecObj) (k k2 : PropKey) (v : Val) (h : k2 ≠ k) :
    lookupK (setK r k v) k2 = lookupK r k2 := by
  induction r with
  | nil => simp [setK, lookupK, Ne.symm h]
  | cons kv rest ih =>
      obtain ⟨k1, v1⟩ := kv
      unfold setK
      by_cases h1 : k1 = k
      · rw [if_pos h1]
        unfold lookupK
        rw [if_neg (Ne.symm h), if_neg (h1 ▸ (fun h2 => h (h2 ▸ rfl)) : ¬k1 = k2)]
      · rw [if_neg h1]
        unfold lookupK
        by_cases h2 : k1 = k2
        · rw [if_pos h2, if_pos h2]
        · rw [if_neg h2, if_neg h2, ih]

theorem lookup_deleteK_other (r : RecObj) (k k2 : PropKey) (h : k2 ≠ k) :
    lookupK (deleteK r k) k2 = lookupK r k2 := by
  induction r with
  | nil => rfl
  | cons kv rest ih =>
      obtain ⟨k1, v1⟩ := kv
      unfold deleteK
      by_cases h1 : k1 = k
      · rw [if_pos h1]
        have hne : ¬k1 = k2 := fun h2 => h (h2.symm.trans h1)
        show lookupK rest k2 = if k1 = k2 then some v1 else lookupK rest k2
        rw [if_neg hne]
      · rw [if_neg h1]
        unfold lookupK
        by_cases h2 : k1 = k2
        · rw [if_pos h2, if_pos h2]
        · rw [if_neg h2, if_neg h2, ih]

theorem keysOf_deleteK_sublist (r : RecObj) (k : PropKey) :
    (keysOf (deleteK r k)).Sublist (keysOf r) := by
  induction r with
  | nil => exact List.Sublist.refl _
  | cons kv rest ih =>
      obtain ⟨k1, v1⟩ := kv
      unfold deleteK
      by_cases h1 : k1 = k
      · rw [if_pos h1]
        exact (List.sublist_cons_self _ _)
      · rw [if_neg h1]
        exact List.Sublist.cons₂ _ ih

theorem lookup_deleteK_self (r : RecObj) (k : PropKey) (hn : (keysOf r).Nodup) :
    lookupK (deleteK r k) k = none := by
  induction r with
  | nil => rfl
  | cons kv rest ih =>
      obtain ⟨k1, v1⟩ := kv
      unfold deleteK
      rw [keysOf, List.map_cons, List.nodup_cons] at hn
      by_cases h1 : k1 = k
      · rw [if_pos h1]
        rw [lookup_eq_none_iff]
        exact fun hm => hn.1 (h1 ▸ hm)
      · rw [if_neg h1]
        unfold lookupK
        rw [if_neg h1]
        exact ih hn.2

theorem nodup_keys_setK (r : RecObj) (k : PropKey) (v : Val) (hn : (keysOf r).Nodup) :
    (keysOf (setK r k v)).Nodup := by
  induction r with
  | nil => simp [setK, keysOf]
  | cons kv rest ih =>
      obtain ⟨k1, v1⟩ := kv
      rw [keysOf, List.map_cons, List.nodup_cons] at hn
      unfold setK
      by_cases h1 : k1 = k
      · rw [if_pos h1]
        rw [keysOf, List.map_cons, List.nodup_cons]
        exact ⟨h1 ▸ hn.1, hn.2⟩
      · rw [if_neg h1]
        rw [keysOf, List.map_cons, List.nodup_cons]
        constructor
        · intro hm
          rcases (List.mem_map.mp hm) with ⟨kv2, hkv2, hfst⟩
          -- k1 is a key of setK rest k v: it is either in rest or equal to k
          have : k1 ∈ keysOf (setK rest k v) := List.mem_map.mpr ⟨kv2, hkv2, hfst⟩
          by_cases hk1 : k1 ∈ keysOf rest
          · exact hn.1 hk1
          · -- k1 ∉ keys rest, so lookупK rest k1 = none
            have hz : lookupK (setK rest k v) k1 = none := by
              rw [lookup_setK_other rest k k1 v h1]
              exact (lookup_eq_none_iff rest k1).mpr hk1
            rw [lookup_eq_none_iff] at hz
            exact hz this
        · exact ih hn.2

theorem nodup_keys_deleteK (r : RecObj) (k : PropKey) (hn : (keysOf r).Nodup) :
    (keysOf (deleteK r k)).Nodup :=
  (keysOf_deleteK_sublist r k).nodup hn

theorem exists_mem_congr {α : Type} {l : List α} {P Q : α → Prop}
    (h : ∀ x ∈ l, (P x ↔ Q x)) : (∃ x ∈ l, P x) ↔ (∃ x ∈ l, Q x) := by
  constructor
  · rintro ⟨x, hx, hp⟩
    exact ⟨x, hx, (h x hx).mp hp⟩
  · rintro ⟨x, hx, hq⟩
    exact ⟨x, hx, (h x hx).mpr hq⟩

theorem deleteProp_records (s : RState) (c : ContainerId) (k : PropKey) :
    (deleteProp s c k).records =
      fun c2 => if c2 = c then deleteK (s.records c) k else s.records c2 := by
  show (List.foldl scheduleNotification _ _).records = _
  exact foldl_proj_invariant scheduleNotification RState.records (fun s o => rfl) _ _

theorem deleteProp_listeners (s : RState) (c : ContainerId) (k : PropKey) :
    (deleteProp s c k).listeners = s.listeners := by
  show (List.foldl scheduleNotification _ _).listeners = s.listeners
  exact foldl_proj_invariant scheduleNotification RState.listeners (fun s o => rfl) _ _

theorem deleteProp_subs (s : RState) (c : ContainerId) (k : PropKey) :
    (deleteProp s c k).subs = s.subs := by
  show (List.foldl scheduleNotification _ _).subs = s.subs
  exact foldl_proj_invariant scheduleNotification RState.subs (fun s o => rfl) _ _

theorem deleteProp_pending_mem (s : RState) (c : ContainerId) (k : PropKey) (o : ObsId) :
    o ∈ (deleteProp s c k).pending ↔ o ∈ s.pending ∨ o ∈ s.listeners c k := by
  show o ∈ (List.foldl scheduleNotification _ _).pending ↔ _
  rw [mem_foldl_schedule]

/-- The pure effect of the first `updateProps` phase on one backing record. -/
def recApply (r : RecObj) (np : RecObj) : RecObj :=
  np.foldl (fun r2 kv => setK r2 kv.1 kv.2) r

theorem phase1_records (c : ContainerId) :
    ∀ (np : RecObj) (s : RState),
      (np.foldl (fun acc kv => setProp acc c kv.1 kv.2) s).records =
        fun c2 => if c2 = c then recApply (s.records c) np else s.records c2 := by
  intro np
  induction np with
  | nil =>
      intro s
      funext c2
      by_cases h : c2 = c
      · rw [if_pos h, h]; rfl
      · rw [if_neg h]; rfl
  | cons kv rest ih =>
      intro s
      rw [List.foldl_cons, ih]
      funext c2
      rw [setProp_records]
      dsimp only
      by_cases h : c2 = c
      · rw [if_pos h, if_pos h, if_pos rfl]
        rfl
      · rw [if_neg h, if_neg h, if_neg h]

theorem keysOf_cons (k1 : PropKey) (v1 : Val) (rest : RecObj) :
    keysOf ((k1, v1) :: rest) = k1 :: keysOf rest := rfl

theorem recApply_lookup :
    ∀ (np r : RecObj) (k : PropKey), (keysOf np).Nodup →
      lookupK (recApply r np) k =
        if k ∈ keysOf np then lookupK np k else lookupK r k := by
  intro np
  induction np with
  | nil => intro r k h; simp [recApply, keysOf]
  | cons kv rest ih =>
      obtain ⟨k1, v1⟩ := kv
      intro r k hn
      rw [keysOf, List.map_cons, List.nodup_cons] at hn
      show lookupK (recApply (setK r k1 v1) rest) k = _
      rw [ih _ _ hn.2]
      by_cases hk : k ∈ keysOf rest
      · rw [if_pos hk, if_pos (by rw [keysOf_cons]; exact List.mem_cons_of_mem _ hk)]
        have hne : ¬k1 = k := fun h => hn.1 (h ▸ hk)
        show lookupK rest k = if k1 = k then some v1 else lookupK rest k
        rw [if_neg hne]
      · rw [if_neg hk]
        by_cases hk1 : k1 = k
        · subst hk1
          rw [lookup_setK_same, if_pos (by rw [keysOf_cons]; exact List.mem_cons_self _ _)]
          show some v1 = if k1 = k1 then some v1 else lookupK rest k1
          rw [if_pos rfl]
        · rw [lookup_setK_other r k1 k v1 (fun h => hk1 h.symm),
            if_neg (by
              rw [keysOf_cons]
              intro hm
              rcases List.mem_cons.mp hm with h | h
              · exact hk1 h.symm
              · exact hk h)]

theorem phase1_pending_mem (c : ContainerId) :
    ∀ (np : RecObj) (s : RState) (o : ObsId), (keysOf np).Nodup →
      (o ∈ (np.foldl (fun acc kv => setProp acc c kv.1 kv.2) s).pending ↔
        o ∈ s.pending ∨
          ∃ kv ∈ np, o ∈ s.listeners c kv.1 ∧ lookupK (s.records c) kv.1 ≠ some kv.2) := by
  intro np
  induction np with
  | nil => intro s o h; simp
  | cons kv rest ih =>
      obtain ⟨k1, v1⟩ := kv
      intro s o hn
      rw [keysOf, List.map_cons, List.nodup_cons] at hn
      rw [List.foldl_cons, ih _ _ hn.2, setProp_pending_mem, setProp_listeners]
      have hrec : ∀ kv2 ∈ rest,
          lookupK ((setProp s c k1 v1).records c) kv2.1 = lookupK (s.records c) kv2.1 := by
        intro kv2 hkv2
        rw [setProp_records]
        dsimp only
        rw [if_pos rfl]
        apply lookup_setK_other
        intro h
        exact hn.1 (h ▸ List.mem_map.mpr ⟨kv2, hkv2, rfl⟩)
      rw [exists_mem_congr (fun kv2 hkv2 => by rw [hrec kv2 hkv2])]
      constructor
      · rintro ((h | h) | ⟨kv2, hm, hp⟩)
        · exact Or.inl h
        · exact Or.inr ⟨(k1, v1), List.mem_cons_self _ _, h⟩
        · exact Or.inr ⟨kv2, List.mem_cons_of_mem _ hm, hp⟩
      · rintro (h | ⟨kv2, hm, hp⟩)
        · exact Or.inl (Or.inl h)
        · rcases List.mem_cons.mp hm with h2 | h2
          · subst h2; exact Or.inl (Or.inr hp)
          · exact Or.inr ⟨kv2, h2, hp⟩

theorem phase2_records_lookup (c : ContainerId) (nks : List PropKey) (k : PropKey) :
    ∀ (eks : List PropKey) (s : RState), (keysOf (s.records c)).Nodup →
      (lookupK ((eks.foldl
          (fun acc k2 => if k2 ∈ nks then acc else deleteProp acc c k2) s).records c) k =
        if k ∈ eks ∧ k ∉ nks then none else lookupK (s.records c) k) ∧
      ((keysOf ((eks.foldl
          (fun acc k2 => if k2 ∈ nks then acc else deleteProp acc c k2) s).records c)).Nodup) := by
  intro eks
  induction eks with
  | nil =>
      intro s hn
      refine ⟨?_, hn⟩
      rw [if_neg (by intro h; exact absurd h.1 (List.not_mem_nil k))]
      rfl
  | cons k1 rest ih =>
      intro s hn
      rw [List.foldl_cons]
      by_cases h1 : k1 ∈ nks
      · rw [if_pos h1]
        obtain ⟨hl, hnd⟩ := ih s hn
        refine ⟨?_, hnd⟩
        rw [hl]
        by_cases hk : k ∈ rest ∧ k ∉ nks
        · rw [if_pos hk, if_pos ⟨List.mem_cons_of_mem _ hk.1, hk.2⟩]
        · rw [if_neg hk, if_neg (by
            rintro ⟨hm, hnk⟩
            rcases List.mem_cons.mp hm with h2 | h2
            · exact hnk (h2 ▸ h1)
            · exact hk ⟨h2, hnk⟩)]
      · rw [if_neg h1]
        have hrec : (deleteProp s c k1).records c = deleteK (s.records c) k1 := by
          rw [deleteProp_records]
          dsimp only
          rw [if_pos rfl]
        have hnd1 : (keysOf ((deleteProp s c k1).records c)).Nodup := by
          rw [hrec]; exact nodup_keys_deleteK _ _ hn
        obtain ⟨hl, hnd2⟩ := ih _ hnd1
        refine ⟨?_, hnd2⟩
        rw [hl, hrec]
        by_cases hk : k ∈ rest ∧ k ∉ nks
        · rw [if_pos hk, if_pos ⟨List.mem_cons_of_mem _ hk.1, hk.2⟩]
        · rw [if_neg hk]
          by_cases hkk1 : k = k1
          · subst hkk1
            rw [lookup_deleteK_self _ _ hn, if_pos ⟨List.mem_cons_self _ _, h1⟩]
          · rw [lookup_deleteK_other _ _ _ hkk1, if_neg (by
              rintro ⟨hm, hnk⟩
              rcases List.mem_cons.mp hm with h2 | h2
              · exact hkk1 h2
              · exact hk ⟨h2, hnk⟩)]

theorem phase2_pending_mem (c : ContainerId) (nks : List PropKey) :
    ∀ (eks : List PropKey) (s : RState) (o : ObsId),
      (o ∈ (eks.foldl
          (fun acc k2 => if k2 ∈ nks then acc else deleteProp acc c k2) s).pending ↔
        o ∈ s.pending ∨ ∃ k ∈ eks, k ∉ nks ∧ o ∈ s.listeners c k) := by
  intro eks
  induction eks with
  | nil => intro s o; simp
  | cons k1 rest ih =>
      intro s o
      rw [List.foldl_cons]
      by_cases h1 : k1 ∈ nks
      · rw [if_pos h1, ih]
        constructor
        · rintro (h | ⟨k, hm, hp⟩)
          · exact Or.inl h
          · exact Or.inr ⟨k, List.mem_cons_of_mem _ hm, hp⟩
        · rintro (h | ⟨k, hm, hp⟩)
          · exact Or.inl h
          · rcases List.mem_cons.mp hm with h2 | h2
            · exact absurd (h2 ▸ h1) hp.1
            · exact Or.inr ⟨k, h2, hp⟩
      · rw [if_neg h1, ih, deleteProp_pending_mem, deleteProp_listeners]
        constructor
        · rintro ((h | h) | ⟨k, hm, hp⟩)
          · exact Or.inl h
          · exact Or.inr ⟨k1, List.mem_cons_self _ _, h1, h⟩
          · exact Or.inr ⟨k, List.mem_cons_of_mem _ hm, hp⟩
        · rintro (h | ⟨k, hm, hp⟩)
          · exact Or.inl (Or.inl h)
          · rcases List.mem_cons.mp hm with h2 | h2
            · subst h2; exact Or.inl (Or.inr hp.2)
            · exact Or.inr ⟨k, h2, hp⟩

theorem updateProps_listeners (s : RState) (c : ContainerId) (np : RecObj) :
    (updateProps s c np).listeners = s.listeners := by
  unfold updateProps
  rw [foldl_proj_invariant
    (fun (acc : RState) (k : PropKey) => if k ∈ keysOf np then acc else deleteProp acc c k)
    RState.listeners
    (fun s k => by by_cases h : k ∈ keysOf np <;> simp [h, deleteProp_listeners]) _ _]
  exact foldl_proj_invariant
    (fun (acc : RState) (kv : PropKey × Val) => setProp acc c kv.1 kv.2)
    RState.listeners (fun s kv => setProp_listeners s c kv.1 kv.2) _ _

theorem updateProps_subs (s : RState) (c : ContainerId) (np : RecObj) :
    (updateProps s c np).subs = s.subs := by
  unfold updateProps
  rw [foldl_proj_invariant
    (fun (acc : RState) (k : PropKey) => if k ∈ keysOf np then acc else deleteProp acc c k)
    RState.subs
    (fun s k => by by_cases h : k ∈ keysOf np <;> simp [h, deleteProp_subs]) _ _]
  exact foldl_proj_invariant
    (fun (acc : RState) (kv : PropKey × Val) => setProp acc c kv.1 kv.2)
    RState.subs (fun s kv => setProp_subs s c kv.1 kv.2) _ _

theorem updateProps_records_other (s : RState) (c c2 : ContainerId) (np : RecObj)
    (h : c2 ≠ c) : (updateProps s c np).records c2 = s.records c2 := by
  unfold updateProps
  rw [foldl_proj_invariant
    (fun (acc : RState) (k : PropKey) => if k ∈ keysOf np then acc else deleteProp acc c k)
    (fun t => t.records c2)
    (fun s k => by
      show (if k ∈ keysOf np then s else deleteProp s c k).records c2 = s.records c2
      by_cases hk : k ∈ keysOf np
      · rw [if_pos hk]
      · rw [if_neg hk, deleteProp_records]
        dsimp only
        rw [if_neg h]) _ _]
  exact foldl_proj_invariant
    (fun (acc : RState) (kv : PropKey × Val) => setProp acc c kv.1 kv.2)
    (fun t => t.records c2)
    (fun s kv => by
      show (setProp s c kv.1 kv.2).records c2 = s.records c2
      rw [setProp_records]
      dsimp only
      rw [if_neg h]) _ _

theorem nodup_keys_recApply :
    ∀ (np r : RecObj), (keysOf r).Nodup → (keysOf (recApply r np)).Nodup := by
  intro np
  induction np with
  | nil => intro r h; exact h
  | cons kv rest ih =>
      intro r h
      show (keysOf (recApply (setK r kv.1 kv.2) rest)).Nodup
      exact ih _ (nodup_keys_setK r kv.1 kv.2 h)

theorem updateProps_eq (s : RState) (c : ContainerId) (np : RecObj) :
    updateProps s c np =
      (keysOf (s.records c)).foldl
        (fun acc k => if k ∈ keysOf np then acc else deleteProp acc c k)
        (np.foldl (fun acc kv => setProp acc c kv.1 kv.2) s) := rfl

/-- C6: for every props container and partial-update record (both with
duplicate-free keys), the bulk update `updateProps` leaves the backing
record holding exactly the keys of the partial with the partial's values
(keys of the old record absent from the partial are deleted), leaves every
other container untouched, and schedules notification for exactly the
dependents of (a) keys of the partial whose new value differs from the old
by strict inequality and (b) keys of the old record absent from the
partial; keys with strictly identical values notify nobody.  The listener
table, the subscription table and the invocation log are unchanged — the
container keeps its identity and its dependents stay attached, and no
callback runs synchronously. -/
theorem c6_updateProps_exact (s : RState) (c : ContainerId) (np : RecObj)
    (hT : (keysOf (s.records c)).Nodup) (hP : (keysOf np).Nodup) :
    (∀ k, lookupK ((updateProps s c np).records c) k = lookupK np k) ∧
    (∀ c2, c2 ≠ c → (updateProps s c np).records c2 = s.records c2) ∧
    (∀ o, o ∈ (updateProps s c np).pending ↔
      o ∈ s.pending ∨
        (∃ kv ∈ np, o ∈ s.listeners c kv.1 ∧ lookupK (s.records c) kv.1 ≠ some kv.2) ∨
        (∃ k ∈ keysOf (s.records c), k ∉ keysOf np ∧ o ∈ s.listeners c k)) ∧
    ((updateProps s c np).listeners = s.listeners) ∧
    ((updateProps s c np).subs = s.subs) ∧
    ((updateProps s c np).invocations = s.invocations) := by
  have h1rec := phase1_records c np s
  have h1c : (np.foldl (fun acc kv => setProp acc c kv.1 kv.2) s).records c =
      recApply (s.records c) np := by
    rw [h1rec]
    dsimp only
    rw [if_pos rfl]
  have hl1 : (np.foldl (fun acc kv => setProp acc c kv.1 kv.2) s).listeners = s.listeners :=
    foldl_proj_invariant (fun (acc : RState) (kv : PropKey × Val) => setProp acc c kv.1 kv.2)
      RState.listeners (fun s kv => setProp_listeners s c kv.1 kv.2) np s
  have hnod1 : (keysOf ((np.foldl (fun acc kv => setProp acc c kv.1 kv.2) s).records c)).Nodup := by
    rw [h1c]
    exact nodup_keys_recApply np _ hT
  refine ⟨?_, ?_, ?_, updateProps_listeners s c np, updateProps_subs s c np,
    updateProps_invocations s c np⟩
  · intro k
    rw [updateProps_eq]
    rw [(phase2_records_lookup c (keysOf np) k (keysOf (s.records c)) _ hnod1).1, h1c,
      recApply_lookup np _ k hP]
    by_cases hk : k ∈ keysOf np
    · rw [if_neg (by rintro ⟨hm, hnk⟩; exact hnk hk), if_pos hk]
    · by_cases he : k ∈ keysOf (s.records c)
      · rw [if_pos ⟨he, hk⟩, ((lookup_eq_none_iff np k).mpr hk).symm]
      · rw [if_neg (by rintro ⟨hm, hnk⟩; exact he hm), if_neg hk,
          (lookup_eq_none_iff _ k).mpr he, (lookup_eq_none_iff np k).mpr hk]
  · intro c2 h
    exact updateProps_records_other s c c2 np h
  · intro o
    rw [updateProps_eq, phase2_pending_mem c (keysOf np) (keysOf (s.records c)) _ o,
      phase1_pending_mem c np s o hP, hl1]
    exact or_assoc

/-- Concrete props container for the C6 witness: backing record has keys
`0` (value 1, observed by callback 0) and `1` (value 2, observed by
callback 1). -/
def c6State : RState :=
  { records := fun c => if c = 0 then [(0, 1), (1, 2)] else [],
    listeners := fun c p =>
      if c = 0 then (if p = 0 then [0] else (if p = 1 then [1] else [])) else [],
    subs := fun o => if o = 0 then [(0, 0)] else (if o = 1 then [(0, 1)] else []),
    pending := [], scheduled := false, disposed := fun _ => false,
    currentObserver := none, runCount := fun _ => 0, invocations := [] }

/-- Concrete partial update for the C6 witness: key `0` keeps its strictly
identical value, key `2` is added, key `1` is absent (so it is removed). -/
def c6NewProps : RecObj := [(0, 1), (2, 7)]

theorem c6_updateProps_exact_witness :
    ((keysOf (c6State.records 0)).Nodup) ∧ ((keysOf c6NewProps).Nodup) ∧
    ((∀ k, lookupK ((updateProps c6State 0 c6NewProps).records 0) k = lookupK c6NewProps k) ∧
    (∀ c2, c2 ≠ 0 → (updateProps c6State 0 c6NewProps).records c2 = c6State.records c2) ∧
    (∀ o, o ∈ (updateProps c6State 0 c6NewProps).pending ↔
      o ∈ c6State.pending ∨
        (∃ kv ∈ c6NewProps, o ∈ c6State.listeners 0 kv.1 ∧
          lookupK (c6State.records 0) kv.1 ≠ some kv.2) ∨
        (∃ k ∈ keysOf (c6State.records 0), k ∉ keysOf c6NewProps ∧
          o ∈ c6State.listeners 0 k)) ∧
    ((updateProps c6State 0 c6NewProps).listeners = c6State.listeners) ∧
    ((updateProps c6State 0 c6NewProps).subs = c6State.subs) ∧
    ((updateProps c6State 0 c6NewProps).invocations = c6State.invocations)) :=
  ⟨by decide, by decide, c6_updateProps_exact c6State 0 c6NewProps (by decide) (by decide)⟩

/-! ### Embedding of `component.ts` `renderComponent`: cache keys and
cached-vnode reuse

`renderComponent` computes, per child component occurrence inside a parent
render pass, a cache key: `key:fnId:key` for an explicit key, else
`pos:fnId:childPosition` where `parent.childPosition` is a single counter
reset to `0` at the start of the parent render pass and incremented for
every non-keyed component child of any function.  On a cache hit the
instance is reused and the thunk returns the instance's `_cachedVNode`,
which is assigned once on first render and never replaced; on a miss a
fresh instance (with a fresh `_cachedVNode`) is created and registered in
the parent's `children` map. -/

abbrev FnId := Nat
abbrev KeyVal := Nat

/-- One child component occurrence in a parent's render output: the
component function (by its `__componentId`) and the optional explicit
`key` prop. -/
abbrev Occ := FnId × Option KeyVal

/-- The cache key of `renderComponent` (`key:fnId:key`, `pos:fnId:i`, or
`root:fnId` for a component without parent). -/
inductive CacheKey where
  | keyed (fnId : FnId) (k : KeyVal)
  | pos (fnId : FnId) (i : Nat)
  | root (fnId : FnId)
deriving DecidableEq

/-- One step of the cache-key computation: an explicit key leaves
`childPosition` alone, a positional child consumes the current position. -/
def cacheKeyStep (childPos : Nat) (occ : Occ) : CacheKey × Nat :=
  match occ.2 with
  | some k => (CacheKey.keyed occ.1 k, childPos)
  | none => (CacheKey.pos occ.1 childPos, childPos + 1)

def childIdentitiesAux : Nat → List Occ → List CacheKey
  | _, [] => []
  | pos, occ :: rest =>
      (cacheKeyStep pos occ).1 :: childIdentitiesAux (cacheKeyStep pos occ).2 rest

/-- The identities `renderComponent` assigns to the child occurrences of
one parent render pass (`childPosition` is reset to 0 at pass start). -/
def childIdentities (occs : List Occ) : List CacheKey := childIdentitiesAux 0 occs

/-- Modelled from the spec (for comparison with the code): identity with
the ordinal counted among siblings of the same function only, as the spec
words it. -/
def specIdentitiesAux : (FnId → Nat) → List Occ → List CacheKey
  | _, [] => []
  | counts, occ :: rest =>
      match occ.2 with
      | some k => CacheKey.keyed occ.1 k :: specIdentitiesAux counts rest
      | none =>
          CacheKey.pos occ.1 (counts occ.1) ::
            specIdentitiesAux
              (fun f2 => if f2 = occ.1 then counts occ.1 + 1 else counts f2) rest

/-- Modelled from the spec: per-function ordinal identities, reset per
render pass. -/
def specIdentities (occs : List Occ) : List CacheKey :=
  specIdentitiesAux (fun _ => 0) occs

/-- Number of non-keyed component occurrences in a list. -/
def countNoKey (occs : List Occ) : Nat :=
  (occs.filter (fun occ => occ.2 = none)).length

theorem childIdentitiesAux_length :
    ∀ (occs : List Occ) (n : Nat), (childIdentitiesAux n occs).length = occs.length := by
  intro occs
  induction occs with
  | nil => intro n; rfl
  | cons occ rest ih =>
      intro n
      show _ + 1 = _ + 1
      rw [ih]

theorem cacheKeyStep_none (pos : Nat) (occ : Occ) (h : occ.2 = none) :
    cacheKeyStep pos occ = (CacheKey.pos occ.1 pos, pos + 1) := by
  unfold cacheKeyStep
  rw [h]

theorem cacheKeyStep_some (pos : Nat) (occ : Occ) (k : KeyVal) (h : occ.2 = some k) :
    cacheKeyStep pos occ = (CacheKey.keyed occ.1 k, pos) := by
  unfold cacheKeyStep
  rw [h]

theorem countNoKey_cons (occ : Occ) (rest : List Occ) :
    countNoKey (occ :: rest) =
      (if occ.2 = none then 1 else 0) + countNoKey rest := by
  unfold countNoKey
  rw [List.filter_cons]
  by_cases h : occ.2 = none
  · simp [h]
    omega
  · simp [h]

theorem childIdentitiesAux_get_keyed :
    ∀ (occs : List Occ) (n i : Nat) (f : FnId) (k : KeyVal),
      occs.get? i = some (f, some k) →
      (childIdentitiesAux n occs).get? i = some (CacheKey.keyed f k) := by
  intro occs
  induction occs with
  | nil => intro n i f k h; exact absurd h (by simp)
  | cons occ rest ih =>
      intro n i f k h
      cases i with
      | zero =>
          rw [List.get?_cons_zero] at h
          have heq := Option.some.inj h
          subst heq
          show some (cacheKeyStep n (f, some k)).1 = some (CacheKey.keyed f k)
          rw [cacheKeyStep_some n (f, some k) k rfl]
      | succ i =>
          rw [List.get?_cons_succ] at h
          show (childIdentitiesAux (cacheKeyStep n occ).2 rest).get? i = _
          exact ih _ i f k h

theorem childIdentitiesAux_get_pos :
    ∀ (occs : List Occ) (n i : Nat) (f : FnId),
      occs.get? i = some (f, none) →
      (childIdentitiesAux n occs).get? i =
        some (CacheKey.pos f (n + countNoKey (occs.take i))) := by
  intro occs
  induction occs with
  | nil => intro n i f h; exact absurd h (by simp)
  | cons occ rest ih =>
      intro n i f h
      cases i with
      | zero =>
          rw [List.get?_cons_zero] at h
          have heq := Option.some.inj h
          subst heq
          show some (cacheKeyStep n (f, none)).1 = _
          rw [cacheKeyStep_none n (f, none) rfl]
          show some (CacheKey.pos f n) = some (CacheKey.pos f (n + countNoKey []))
          rw [show countNoKey [] = 0 from rfl, Nat.add_zero]
      | succ i =>
          rw [List.get?_cons_succ] at h
          show (childIdentitiesAux (cacheKeyStep n occ).2 rest).get? i = _
          rw [ih _ i f h, List.take_succ_cons, countNoKey_cons]
          rcases h2 : occ.2 with _ | k2
          · rw [cacheKeyStep_none n occ h2]
            refine congrArg some (congrArg (CacheKey.pos f) ?_)
            show (n + 1) + countNoKey (List.take i rest) =
              n + (1 + countNoKey (List.take i rest))
            omega
          · rw [cacheKeyStep_some n occ k2 h2]
            refine congrArg some (congrArg (CacheKey.pos f) ?_)
            show n + countNoKey (List.take i rest) =
              n + (0 + countNoKey (List.take i rest))
            omega

/-- C1 amended: in `renderComponent`, the identity of the `i`-th child
occurrence of a parent render pass is `keyed fnId key` when an explicit key
is given, else `pos fnId j` where `j` counts the non-keyed component
children of any function seen so far in this pass; the counter resets at
pass start and is parent-wide, not per-function and not branch-scoped. -/
theorem c1_positional_identity (occs : List Occ) (i : Nat) :
    ((childIdentities occs).length = occs.length) ∧
    (∀ f k, occs.get? i = some (f, some k) →
      (childIdentities occs).get? i = some (CacheKey.keyed f k)) ∧
    (∀ f, occs.get? i = some (f, none) →
      (childIdentities occs).get? i =
        some (CacheKey.pos f (countNoKey (occs.take i)))) := by
  refine ⟨childIdentitiesAux_length occs 0, ?_, ?_⟩
  · intro f k h
    exact childIdentitiesAux_get_keyed occs 0 i f k h
  · intro f h
    rw [childIdentities, childIdentitiesAux_get_pos occs 0 i f h, Nat.zero_add]

theorem c1_positional_identity_witness :
    (([((1 : FnId), some 5), (2, none), (3, none)] : List Occ).get? 2 = some (3, none)) ∧
    ((childIdentities [((1 : FnId), some 5), (2, none), (3, none)]).get? 2 =
      some (CacheKey.pos 3
        (countNoKey (([((1 : FnId), some 5), (2, none), (3, none)] : List Occ).take 2)))) :=
  ⟨by decide,
    (c1_positional_identity [((1 : FnId), some 5), (2, none), (3, none)] 2).2.2 3 (by decide)⟩

/-- C1 counterexample: the claimed identity — ordinal among same-function
siblings — disagrees with the code.  In a pass rendering component 2 then
component 1 (both without keys), the code caches component 1 under
position 1, while its same-function ordinal is 0; in a later pass
rendering only component 1 the code assigns position 0, so the instance
cached under `pos 1 1` is not found and the child's identity changed even
though its same-function ordinal (0) did not. -/
theorem c1_positional_identity_cex :
    (childIdentities [(2, none), (1, none)] = [CacheKey.pos 2 0, CacheKey.pos 1 1]) ∧
    (specIdentities [(2, none), (1, none)] = [CacheKey.pos 2 0, CacheKey.pos 1 0]) ∧
    (childIdentities [(2, none), (1, none)] ≠ specIdentities [(2, none), (1, none)]) ∧
    (childIdentities [(1, none)] = [CacheKey.pos 1 0]) ∧
    ((childIdentities [(2, none), (1, none)]).get? 1 ≠ (childIdentities [(1, none)]).get? 0) := by
  refine ⟨by decide, by decide, by decide, by decide, by decide⟩

/-! ### Claim C2: reference stability of the cached vnode across parent
re-renders -/

/-- A component instance as the parent's cache sees it: the component
function and the reference identity of its `_cachedVNode` (assigned once at
creation and never replaced by the instance's own re-renders, which patch
the host element directly). -/
structure CInst where
  fnId : FnId
  cachedVNode : Nat
deriving DecidableEq

/-- A parent instance during rendering: the `children` cache map, a fresh
reference allocator for newly produced vnodes, and the `childPosition`
counter. -/
structure PState where
  children : List (CacheKey × CInst)
  nextRef : Nat
  childPosition : Nat
deriving DecidableEq

/-- `parent.children.get(cacheKey)`. -/
def lookupChild : List (CacheKey × CInst) → CacheKey → Option CInst
  | [], _ => none
  | (ck, inst) :: rest, k => if ck = k then some inst else lookupChild rest k

/-- One child occurrence in `renderComponent`: compute the cache key; on a
hit reuse the instance and hand the parent the instance's stable
`_cachedVNode` reference (via the thunk); on a miss create the instance
with a fresh `_cachedVNode` reference and register it in the parent's
children map.  Returns the updated parent state and the structural
description reference returned to the parent's pass. -/
def renderChild (ps : PState) (occ : Occ) : PState × Nat :=
  match lookupChild ps.children (cacheKeyStep ps.childPosition occ).1 with
  | some inst =>
      ({ ps with childPosition := (cacheKeyStep ps.childPosition occ).2 }, inst.cachedVNode)
  | none =>
      ({ children := ps.children ++
           [((cacheKeyStep ps.childPosition occ).1, CInst.mk occ.1 ps.nextRef)],
         nextRef := ps.nextRef + 1,
         childPosition := (cacheKeyStep ps.childPosition occ).2 }, ps.nextRef)

def renderChildren : PState → List Occ → PState × List Nat
  | ps, [] => (ps, [])
  | ps, occ :: rest =>
      ((renderChildren (renderChild ps occ).1 rest).1,
        (renderChild ps occ).2 :: (renderChildren (renderChild ps occ).1 rest).2)

/-- One parent render pass over its child component occurrences
(`childPosition` resets to 0 at pass start). -/
def renderPass (ps : PState) (occs : List Occ) : PState × List Nat :=
  renderChildren { ps with childPosition := 0 } occs

/-- Setting the `childPosition` counter of a parent state (used to express
the reset at the start of a render pass). -/
def resetPos (t : PState) (n : Nat) : PState :=
  { t with childPosition := n }

theorem renderChildren_cons (ps : PState) (occ : Occ) (rest : List Occ) :
    renderChildren ps (occ :: rest) =
      ((renderChildren (renderChild ps occ).1 rest).1,
        (renderChild ps occ).2 :: (renderChildren (renderChild ps occ).1 rest).2) := rfl

theorem renderChild_hit (ps : PState) (occ : Occ) (inst : CInst)
    (h : lookupChild ps.children (cacheKeyStep ps.childPosition occ).1 = some inst) :
    renderChild ps occ =
      (resetPos ps (cacheKeyStep ps.childPosition occ).2, inst.cachedVNode) := by
  unfold renderChild
  rw [h]
  rfl

theorem renderChild_miss (ps : PState) (occ : Occ)
    (h : lookupChild ps.children (cacheKeyStep ps.childPosition occ).1 = none) :
    renderChild ps occ =
      (PState.mk
        (ps.children ++ [((cacheKeyStep ps.childPosition occ).1, CInst.mk occ.1 ps.nextRef)])
        (ps.nextRef + 1)
        (cacheKeyStep ps.childPosition occ).2, ps.nextRef) := by
  unfold renderChild
  rw [h]

theorem renderChild_reset_hit (t : PState) (n : Nat) (occ : Occ) (inst : CInst)
    (h : lookupChild t.children (cacheKeyStep n occ).1 = some inst) :
    renderChild (resetPos t n) occ =
      (resetPos t (cacheKeyStep n occ).2, inst.cachedVNode) := by
  unfold renderChild resetPos
  dsimp only
  rw [h]

theorem lookupChild_append_left (a b : List (CacheKey × CInst)) (k : CacheKey)
    (inst : CInst) (h : lookupChild a k = some inst) :
    lookupChild (a ++ b) k = some inst := by
  induction a with
  | nil => exact absurd h (by simp [lookupChild])
  | cons kv rest ih =>
      obtain ⟨ck, i2⟩ := kv
      rw [List.cons_append]
      show (if ck = k then some i2 else lookupChild (rest ++ b) k) = some inst
      unfold lookupChild at h
      by_cases hc : ck = k
      · rw [if_pos hc] at h ⊢
        exact h
      · rw [if_neg hc] at h ⊢
        exact ih h

theorem lookupChild_append_right (a b : List (CacheKey × CInst)) (k : CacheKey)
    (h : lookupChild a k = none) :
    lookupChild (a ++ b) k = lookupChild b k := by
  induction a with
  | nil => rfl
  | cons kv rest ih =>
      obtain ⟨ck, i2⟩ := kv
      rw [List.cons_append]
      show (if ck = k then some i2 else lookupChild (rest ++ b) k) = lookupChild b k
      unfold lookupChild at h
      by_cases hc : ck = k
      · rw [if_pos hc] at h
        exact absurd h (by simp)
      · rw [if_neg hc] at h ⊢
        exact ih h

/-- Re-running `renderChildren` over the same occurrence list from the
resulting state (with the position counter reset to its starting value)
changes nothing and returns the same description references: every child is
a cache hit handing back the stored `_cachedVNode`. -/
theorem renderChildren_idem :
    ∀ (occs : List Occ) (ps : PState),
      (∃ added, (renderChildren ps occs).1.children = ps.children ++ added) ∧
      (renderChildren (resetPos (renderChildren ps occs).1 ps.childPosition) occs =
        renderChildren ps occs) := by
  intro occs
  induction occs with
  | nil =>
      intro ps
      refine ⟨⟨[], by rw [List.append_nil]; rfl⟩, rfl⟩
  | cons occ rest ih =>
      intro ps
      rcases hl : lookupChild ps.children (cacheKeyStep ps.childPosition occ).1 with _ | inst
      · -- cache miss on the first pass: the instance is created and registered
        have hstep := renderChild_miss ps occ hl
        obtain ⟨added2, hadd⟩ := (ih (renderChild ps occ).1).1
        have hsnd := (ih (renderChild ps occ).1).2
        have hchild1 : (renderChild ps occ).1.children =
            ps.children ++
              [((cacheKeyStep ps.childPosition occ).1, CInst.mk occ.1 ps.nextRef)] := by
          rw [hstep]
        have hpos1 : (renderChild ps occ).1.childPosition =
            (cacheKeyStep ps.childPosition occ).2 := by
          rw [hstep]
        refine ⟨⟨((cacheKeyStep ps.childPosition occ).1, CInst.mk occ.1 ps.nextRef) :: added2,
          ?_⟩, ?_⟩
        · rw [renderChildren_cons]
          dsimp only
          rw [hadd, hchild1, List.append_assoc]
          rfl
        · have hl2 : lookupChild (renderChildren (renderChild ps occ).1 rest).1.children
              (cacheKeyStep ps.childPosition occ).1 =
              some (CInst.mk occ.1 ps.nextRef) := by
            rw [hadd, hchild1, List.append_assoc,
              lookupChild_append_right _ _ _ hl]
            show (if (cacheKeyStep ps.childPosition occ).1 =
                (cacheKeyStep ps.childPosition occ).1
              then some (CInst.mk occ.1 ps.nextRef)
              else lookupChild added2 (cacheKeyStep ps.childPosition occ).1) = _
            rw [if_pos rfl]
          have hfirst := renderChild_reset_hit
            (renderChildren (renderChild ps occ).1 rest).1 ps.childPosition occ
            (CInst.mk occ.1 ps.nextRef) hl2
          simp only [renderChildren_cons]
          rw [hfirst]
          dsimp only
          rw [hpos1] at hsnd
          rw [hsnd, hstep]
      · -- cache hit on the first pass: the instance and its reference are reused
        have hstep := renderChild_hit ps occ inst hl
        obtain ⟨added2, hadd⟩ := (ih (renderChild ps occ).1).1
        have hsnd := (ih (renderChild ps occ).1).2
        have hchild1 : (renderChild ps occ).1.children = ps.children := by
          rw [hstep]
          rfl
        have hpos1 : (renderChild ps occ).1.childPosition =
            (cacheKeyStep ps.childPosition occ).2 := by
          rw [hstep]
          rfl
        refine ⟨⟨added2, ?_⟩, ?_⟩
        · rw [renderChildren_cons]
          dsimp only
          rw [hadd, hchild1]
        · have hl2 : lookupChild (renderChildren (renderChild ps occ).1 rest).1.children
              (cacheKeyStep ps.childPosition occ).1 = some inst := by
            rw [hadd, hchild1]
            exact lookupChild_append_left _ _ _ _ hl
          have hfirst := renderChild_reset_hit
            (renderChildren (renderChild ps occ).1 rest).1 ps.childPosition occ inst hl2
          simp only [renderChildren_cons]
          rw [hfirst]
          dsimp only
          rw [hpos1] at hsnd
          rw [hsnd, hstep]

/-- C2: when a parent re-renders and a child keeps the same identity (cache
hit), the structural-description reference handed back for that child is
the exact same reference as on the previous pass: re-running a render pass
with the same child occurrences from the state the previous pass produced
returns reference-identical descriptions (and changes no state), because
`_cachedVNode` is assigned once at instance creation and never replaced —
in particular whenever the child's own asynchronous re-render has not
produced fresh output for the parent, which in this code is always. -/
theorem c2_reference_stability (ps : PState) (occs : List Occ) :
    (renderPass (renderPass ps occs).1 occs = renderPass ps occs) ∧
    ((renderPass (renderPass ps occs).1 occs).2 = (renderPass ps occs).2) := by
  have h := (renderChildren_idem occs { ps with childPosition := 0 }).2
  constructor
  · exact h
  · exact congrArg Prod.snd h

/-! ### Claim C5: Suspense boundary pending counter and branch switching

Embedding of `suspense.ts` (`createSuspense` / `Suspense`) together with
the keyed instance registry semantics the Suspense render contexts rely on:
the boundary object holds a reactive `pendingCount`; `createSuspense`
counts, over the promise-cache statuses of its argument promises, one
pending registration for each fresh or still-pending promise, and defers a
single `addPending` of that total; every resolution handler and every
rejection handler calls `removePending(1)`; the Suspense render function
returns the fallback exactly when `pendingCount > 0`; a descendant instance
is created (its setup running once) only on a cache miss, and while the
fallback branch is showing the descendant is kept alive because its parent
is active and it sits in the parent's render context
(`cleanupInactiveComponents` keep-alive), so switching back to content is a
cache hit.  `setupCount` is a ghost counter of descendant setup runs. -/

/-- Promise-cache status of one awaitable at `createSuspense` time. -/
inductive PStatus where
  | fresh
  | pendingBefore
  | resolvedBefore (v : Val)
  | rejectedBefore
deriving DecidableEq

/-- The registration loop of `createSuspense`: each fresh promise and each
promise still pending from a previous render contributes 1 to the deferred
`addPending`; already-settled promises contribute nothing. -/
def registerPendingCount (ps : List PStatus) : Nat :=
  ps.foldl
    (fun n st =>
      match st with
      | PStatus.fresh => n + 1
      | PStatus.pendingBefore => n + 1
      | PStatus.resolvedBefore _ => n
      | PStatus.rejectedBefore => n) 0

/-- The Suspense boundary and the descendant bookkeeping visible to the
claim: the boundary's reactive pending count, a ghost count of descendant
setup runs, and whether the descendant's key is in the instance registry. -/
structure SuspState where
  pendingCount : Int
  setupCount : Nat
  instanceCached : Bool
deriving DecidableEq

/-- `boundary.addPending(count)`. -/
def addPending (st : SuspState) (n : Int) : SuspState :=
  { st with pendingCount := st.pendingCount + n }

/-- `boundary.removePending(count)`; both the resolution and the rejection
handler of `createSuspense` call it with 1. -/
def removePending (st : SuspState) (n : Int) : SuspState :=
  { st with pendingCount := st.pendingCount - n }

inductive Branch where
  | content
  | fallback
deriving DecidableEq

/-- The Suspense render function: fallback while `pendingCount > 0`,
ordinary children otherwise. -/
def suspenseRender (st : SuspState) : Branch :=
  if st.pendingCount > 0 then Branch.fallback else Branch.content

/-- One render cycle of the Suspense subtree: rendering content processes
the descendant occurrence (cache hit reuses the instance without re-running
setup; a miss runs setup once and registers the instance); rendering the
fallback leaves the kept-alive descendant untouched. -/
def renderCycle (st : SuspState) : SuspState :=
  match suspenseRender st with
  | Branch.content =>
      if st.instanceCached then st
      else { st with setupCount := st.setupCount + 1, instanceCached := true }
  | Branch.fallback => st

/-- The two-awaitable scenario: initial render (descendant setup registers
two fresh promises), the deferred `addPending`, a render while both are
pending, the first settlement, a render, the second settlement, and the
render that switches back to content. -/
def c5T1 : SuspState := renderCycle ⟨0, 0, false⟩
def c5T2 : SuspState := addPending c5T1 (registerPendingCount [PStatus.fresh, PStatus.fresh])
def c5T3 : SuspState := renderCycle c5T2
def c5T4 : SuspState := removePending c5T3 1
def c5T5 : SuspState := renderCycle c5T4
def c5T6 : SuspState := removePending c5T5 1
def c5T7 : SuspState := renderCycle c5T6

/-- C5: a descendant registering two pending awaitables under its nearest
Suspense boundary makes the boundary's pending count 2 while both are
pending, 1 after one settles, and 0 after both settle — each resolution or
rejection decrements it by exactly 1; the boundary renders the fallback
exactly when the pending count is greater than 0 and the ordinary children
otherwise; and switching back to content does not re-run the descendant's
setup (its setup-run counter stays at 1 through the whole scenario). -/
theorem c5_suspense_pending_counter :
    (registerPendingCount [PStatus.fresh, PStatus.fresh] = 2) ∧
    (c5T2.pendingCount = 2 ∧ suspenseRender c5T2 = Branch.fallback) ∧
    (c5T4.pendingCount = 1 ∧ suspenseRender c5T4 = Branch.fallback) ∧
    (c5T6.pendingCount = 0 ∧ suspenseRender c5T6 = Branch.content) ∧
    (c5T1.setupCount = 1 ∧ c5T7.setupCount = 1 ∧ suspenseRender c5T6 = Branch.content) ∧
    (∀ st : SuspState, (removePending st 1).pendingCount = st.pendingCount - 1) ∧
    (∀ st : SuspState, (suspenseRender st = Branch.fallback ↔ st.pendingCount > 0)) := by
  refine ⟨by decide, by decide, by decide, by decide, by decide, fun st => rfl, ?_⟩
  intro st
  unfold suspenseRender
  by_cases h : st.pendingCount > 0
  · simp [h]
  · simp [h]

/-! ### Claim C8: re-entrancy guard at root attachment

Two root-attachment entry points exist in the sources.  The tree-based
`mount` wraps its `render()` in a per-attachment `renderDepth` counter with
`MAX_RENDER_DEPTH = 100` and throws a diagnostic `Error` when the bound is
exceeded (the `setTimeout` reset does not run inside one synchronous
re-entrant window).  The host-based `render`/`mount` of
`packages/core/src/component.ts` has no such counter: a component that
writes state it also reads re-schedules its own observer on every flush,
and no error-raising path exists in that loop. -/

/-- State of the host-based re-render loop for a component that mutates
state it reads on every render: how many times its render has run, and
whether its observer is scheduled again. -/
structure HostLoop where
  renderCount : Nat
  pending : Bool
deriving DecidableEq

/-- One render of such a component in the host-based system: the tracked
write schedules the component's own observer again.  Translated from
`component.ts`, which contains no depth counter, this function has no
error branch. -/
def hostRender (st : HostLoop) : Except String HostLoop :=
  Except.ok { renderCount := st.renderCount + 1, pending := true }

/-- The host-based loop: initial render, then one microtask flush per
step, each re-running the self-scheduling observer. -/
def hostRun : Nat → Except String HostLoop
  | 0 => hostRender ⟨0, false⟩
  | n + 1 =>
      (hostRun n).bind
        (fun st => if st.pending then hostRender { st with pending := false } else Except.ok st)

set_option maxRecDepth 4096 in
/-- C8 counterexample: in the host-based `render` entry point there is no
re-entrancy counter: after 150 re-entrant cycles — well past the bound of
100 — the self-scheduling component has rendered 151 times, is scheduled
again, and no diagnostic error has been raised, so it is not the case that
every root attachment detects unbounded re-entrant scheduling with a
bounded counter and raises a diagnostic. -/
theorem c8_no_guard_in_host_render :
    hostRun 150 = Except.ok { renderCount := 151, pending := true } := by
  rfl

def MAX_RENDER_DEPTH : Nat := 100

/-- The diagnostic thrown by the tree-based `mount` when the render depth
bound is exceeded. -/
def maxDepthMsg : String :=
  "Maximum render depth exceeded. Possible infinite render loop detected. This usually happens when state is modified during render. Make sure state updates only happen in event handlers, not during render."

/-- Per-root state of the tree-based `mount`: the `renderDepth` counter and
a ghost count of completed renders. -/
structure MountLoop where
  renderDepth : Nat
  renderCount : Nat
deriving DecidableEq

/-- One entry into `mount`'s `render()`: increment `renderDepth` first; if
it exceeds `MAX_RENDER_DEPTH`, reset the counter and throw the diagnostic
instead of rendering. -/
def mountRenderStep (st : MountLoop) : Except String MountLoop :=
  if st.renderDepth + 1 > MAX_RENDER_DEPTH then Except.error maxDepthMsg
  else Except.ok { renderDepth := st.renderDepth + 1, renderCount := st.renderCount + 1 }

/-- `n` synchronous re-entrant renders within one window (no timer reset)
for one root attachment. -/
def mountLoop : Nat → Except String MountLoop
  | 0 => Except.ok ⟨0, 0⟩
  | n + 1 => (mountLoop n).bind mountRenderStep

/-- C8 amended: the tree-based `mount` entry point detects unbounded
re-entrant scheduling with a bounded per-root `renderDepth` counter: within
one synchronous window at most `MAX_RENDER_DEPTH` (100) re-entrant renders
run, and every window of more than 100 re-entrant renders raises the
diagnostic error instead of exhausting the stack or hanging; the host-based
`render` entry point has no such counter (see the counterexample). -/
theorem c8_render_depth_guard :
    (∀ n, n ≤ MAX_RENDER_DEPTH →
      mountLoop n = Except.ok { renderDepth := n, renderCount := n }) ∧
    (∀ n, n > MAX_RENDER_DEPTH → mountLoop n = Except.error maxDepthMsg) := by
  have hok : ∀ n, n ≤ MAX_RENDER_DEPTH →
      mountLoop n = Except.ok { renderDepth := n, renderCount := n } := by
    intro n
    induction n with
    | zero => intro h; rfl
    | succ n ih =>
        intro h
        have h1 : n ≤ MAX_RENDER_DEPTH := Nat.le_of_succ_le h
        show (mountLoop n).bind mountRenderStep = _
        rw [ih h1]
        show mountRenderStep ⟨n, n⟩ = _
        unfold mountRenderStep
        dsimp only
        rw [if_neg (by unfold MAX_RENDER_DEPTH at h ⊢; omega)]
  refine ⟨hok, ?_⟩
  intro n
  induction n with
  | zero => intro h; exact absurd h (by unfold MAX_RENDER_DEPTH; omega)
  | succ n ih =>
      intro h
      by_cases hn : n > MAX_RENDER_DEPTH
      · show (mountLoop n).bind mountRenderStep = _
        rw [ih hn]
        rfl
      · have heq : n = MAX_RENDER_DEPTH := by omega
        show (mountLoop n).bind mountRenderStep = _
        rw [heq, hok MAX_RENDER_DEPTH (Nat.le_refl _)]
        show mountRenderStep ⟨MAX_RENDER_DEPTH, MAX_RENDER_DEPTH⟩ = _
        unfold mountRenderStep
        dsimp only
        rw [if_pos (by unfold MAX_RENDER_DEPTH; omega)]

theorem c8_render_depth_guard_witness :
    ((100 ≤ MAX_RENDER_DEPTH) ∧
      mountLoop 100 = Except.ok { renderDepth := 100, renderCount := 100 }) ∧
    ((101 > MAX_RENDER_DEPTH) ∧ mountLoop 101 = Except.error maxDepthMsg) :=
  ⟨⟨by decide, c8_render_depth_guard.1 100 (by decide)⟩,
    ⟨by decide, c8_render_depth_guard.2 101 (by decide)⟩⟩

/-! ### Claims C9 and C10: usage errors and the two upward walks

Embedding of the context system (`context.ts`), the setup-only lifecycle
hooks of `state.ts`, and the boundary walk of `createSuspense`.  An
instance is represented by its data together with its ancestor chain (self
first): `getContextValue` walks from the calling instance itself upward,
while `findNearestSuspenseBoundary` starts at the parent.  Fallible calls
return `Except` with the exact error messages of the source. -/

abbrev Token := Nat
abbrev ValObj := Nat

/-- The per-instance data the walks inspect: the context-publication map
(`instance.contexts`) and whether a Suspense boundary is attached
(`instance.suspenseBoundary`). -/
structure InstData where
  contexts : List (Token × List ValObj)
  hasSuspenseBoundary : Bool
deriving DecidableEq

/-- An instance with its ancestors: the head is the instance itself, the
tail its parent chain upward. -/
abbrev Chain := List InstData

def lookupTok : List (Token × List ValObj) → Token → Option (List ValObj)
  | [], _ => none
  | (t, vs) :: rest, tok => if t = tok then some vs else lookupTok rest tok

/-- Collected lifecycle callbacks of the instance currently in setup. -/
structure LifecycleCtx where
  mountCallbacks : List Nat
  cleanupCallbacks : List Nat
deriving DecidableEq

/-- `onMount(callback)`: throws unless an instance is in its setup phase. -/
def onMount (cur : Option LifecycleCtx) (cb : Nat) : Except String LifecycleCtx :=
  match cur with
  | none => Except.error ("onMount can only be called during component setup phase")
  | some ctx => Except.ok { ctx with mountCallbacks := ctx.mountCallbacks ++ [cb] }

/-- `onCleanup(callback)`: throws unless an instance is in its setup phase. -/
def onCleanup (cur : Option LifecycleCtx) (cb : Nat) : Except String LifecycleCtx :=
  match cur with
  | none => Except.error ("onCleanup can only be called during component setup phase")
  | some ctx => Except.ok { ctx with cleanupCallbacks := ctx.cleanupCallbacks ++ [cb] }

/-- `setContextValue(context, currentComponent, values)`: a second set of
the same token on one instance throws; otherwise the values are stored on
the instance. -/
def setContextValue (cur : InstData) (tok : Token) (vals : List ValObj) :
    Except String InstData :=
  if (lookupTok cur.contexts tok).isSome then
    Except.error ("context.set() can only be called once per component")
  else Except.ok { cur with contexts := cur.contexts ++ [(tok, vals)] }

/-- `context.set(...)`: throws when no instance is in setup. -/
def contextSet (cur : Option InstData) (tok : Token) (vals : List ValObj) :
    Except String InstData :=
  match cur with
  | none => Except.error ("context.set() must be called during component setup")
  | some inst => setContextValue inst tok vals

/-- `getContextValue(context, currentComponent)`: the walk starts at the
calling instance itself (`let instance = currentComponent`) and moves
upward; exhausting the chain throws. -/
def getContextValue (tok : Token) : Chain → Except String (List ValObj)
  | [] => Except.error ("Context not found in component tree. Make sure a parent component calls context.set() before children call context.get()")
  | inst :: parents =>
      match lookupTok inst.contexts tok with
      | some vals => Except.ok vals
      | none => getContextValue tok parents

/-- `context.get()`: throws when no instance is in setup. -/
def contextGet (cur : Option Chain) (tok : Token) : Except String (List ValObj) :=
  match cur with
  | none => Except.error ("context.get() must be called during component setup")
  | some chain => getContextValue tok chain

/-- The loop of `findNearestSuspenseBoundary`, returning the depth of the
found boundary owner. -/
def findFromDepth (k : Nat) : Chain → Option Nat
  | [] => none
  | inst :: parents =>
      if inst.hasSuspenseBoundary then some k else findFromDepth (k + 1) parents

/-- `findNearestSuspenseBoundary(component)`: the walk starts at
`component.parent`, never at the component itself. -/
def findNearestSuspenseBoundary : Chain → Option Nat
  | [] => none
  | _ :: parents => findFromDepth 1 parents

/-- The guards at the top of `createSuspense`: no current setup instance
throws; no ancestor boundary throws. -/
def createSuspenseCheck (cur : Option Chain) : Except String Nat :=
  match cur with
  | none => Except.error ("createSuspense must be called during component setup phase")
  | some chain =>
      match findNearestSuspenseBoundary chain with
      | none => Except.error ("createSuspense must be used inside a <Suspense> boundary")
      | some k => Except.ok k

/-- C9: every listed usage error throws synchronously at the call site:
`onMount`, `onCleanup`, `context.set`, `context.get` and `createSuspense`
outside any setup phase; a second `context.set` of the same token on one
instance; a `context.get` of a token no instance in the chain published;
and `createSuspense` with no ancestor Suspense boundary. -/
theorem c9_usage_errors_fail_fast :
    (∀ cb : Nat, onMount none cb =
      Except.error ("onMount can only be called during component setup phase")) ∧
    (∀ cb : Nat, onCleanup none cb =
      Except.error ("onCleanup can only be called during component setup phase")) ∧
    (∀ (tok : Token) (vals : List ValObj), contextSet none tok vals =
      Except.error ("context.set() must be called during component setup")) ∧
    (∀ tok : Token, contextGet none tok =
      Except.error ("context.get() must be called during component setup")) ∧
    (∀ (inst : InstData) (tok : Token) (vals vals2 : List ValObj),
      lookupTok inst.contexts tok = some vals →
      setContextValue inst tok vals2 =
        Except.error ("context.set() can only be called once per component")) ∧
    (∀ (tok : Token) (chain : Chain),
      (∀ inst ∈ chain, lookupTok inst.contexts tok = none) →
      getContextValue tok chain =
        Except.error ("Context not found in component tree. Make sure a parent component calls context.set() before children call context.get()")) ∧
    (createSuspenseCheck none =
      Except.error ("createSuspense must be called during component setup phase")) ∧
    (∀ chain : Chain, findNearestSuspenseBoundary chain = none →
      createSuspenseCheck (some chain) =
        Except.error ("createSuspense must be used inside a <Suspense> boundary")) := by
  refine ⟨fun cb => rfl, fun cb => rfl, fun tok vals => rfl, fun tok => rfl, ?_, ?_, rfl, ?_⟩
  · intro inst tok vals vals2 h
    unfold setContextValue
    rw [if_pos (by rw [h]; rfl)]
  · intro tok chain
    induction chain with
    | nil => intro h; rfl
    | cons inst parents ih =>
        intro h
        unfold getContextValue
        rw [h inst (List.mem_cons_self _ _)]
        exact ih (fun i hi => h i (List.mem_cons_of_mem _ hi))
  · intro chain h
    show (match findNearestSuspenseBoundary chain with
      | none => Except.error ("createSuspense must be used inside a <Suspense> boundary")
      | some k => Except.ok k) = _
    rw [h]

/-- Chain with two instances, no publications and no boundaries, used by
the C9 witness. -/
def c9Chain : Chain := [InstData.mk [] false, InstData.mk [] false]

/-- Instance that already published token 3, used by the C9 witness. -/
def c9Inst : InstData := InstData.mk [(3, [7])] false

theorem c9_usage_errors_fail_fast_witness :
    (onMount none 0 =
      Except.error ("onMount can only be called during component setup phase")) ∧
    (setContextValue c9Inst 3 [9] =
      Except.error ("context.set() can only be called once per component")) ∧
    (getContextValue 5 c9Chain =
      Except.error ("Context not found in component tree. Make sure a parent component calls context.set() before children call context.get()")) ∧
    (createSuspenseCheck (some c9Chain) =
      Except.error ("createSuspense must be used inside a <Suspense> boundary")) :=
  ⟨c9_usage_errors_fail_fast.1 0,
    c9_usage_errors_fail_fast.2.2.2.2.1 c9Inst 3 [7] [9] (by decide),
    c9_usage_errors_fail_fast.2.2.2.2.2.1 5 c9Chain (by decide),
    c9_usage_errors_fail_fast.2.2.2.2.2.2.2 c9Chain (by decide)⟩

theorem lookupTok_append_right (a b : List (Token × List ValObj)) (tok : Token)
    (h : lookupTok a tok = none) :
    lookupTok (a ++ b) tok = lookupTok b tok := by
  induction a with
  | nil => rfl
  | cons tv rest ih =>
      obtain ⟨t, vs⟩ := tv
      rw [List.cons_append]
      show (if t = tok then some vs else lookupTok (rest ++ b) tok) = lookupTok b tok
      unfold lookupTok at h
      by_cases hc : t = tok
      · rw [if_pos hc] at h
        exact absurd h (by simp)
      · rw [if_neg hc] at h ⊢
        exact ih h

theorem findFromDepth_none :
    ∀ (parents : Chain) (k : Nat),
      (∀ p ∈ parents, p.hasSuspenseBoundary = false) → findFromDepth k parents = none := by
  intro parents
  induction parents with
  | nil => intro k h; rfl
  | cons p rest ih =>
      intro k h
      unfold findFromDepth
      rw [if_neg (by rw [h p (List.mem_cons_self _ _)]; exact Bool.false_ne_true)]
      exact ih (k + 1) (fun q hq => h q (List.mem_cons_of_mem _ hq))

/-- C10: the upward walk of context `get` starts at the calling instance
itself — an instance that set a token earlier in its own setup reads its
own published values back with no error, even when no ancestor published
the token — while the Suspense-boundary walk starts at the parent and
never finds a boundary attached to the calling instance itself. -/
theorem c10_walk_starting_points :
    (∀ (inst : InstData) (parents : Chain) (tok : Token) (vals : List ValObj)
        (inst2 : InstData),
      setContextValue inst tok vals = Except.ok inst2 →
      getContextValue tok (inst2 :: parents) = Except.ok vals) ∧
    (∀ (inst : InstData) (parents : Chain) (tok : Token) (vals : List ValObj),
      lookupTok inst.contexts tok = some vals →
      getContextValue tok (inst :: parents) = Except.ok vals) ∧
    (∀ (inst : InstData) (parents : Chain),
      inst.hasSuspenseBoundary = true →
      (∀ p ∈ parents, p.hasSuspenseBoundary = false) →
      findNearestSuspenseBoundary (inst :: parents) = none) := by
  refine ⟨?_, ?_, ?_⟩
  · intro inst parents tok vals inst2 h
    unfold setContextValue at h
    by_cases hs : (lookupTok inst.contexts tok).isSome
    · rw [if_pos hs] at h
      exact absurd h (by simp)
    · rw [if_neg hs] at h
      have hnone : lookupTok inst.contexts tok = none := by
        rcases hh : lookupTok inst.contexts tok with _ | v
        · rfl
        · rw [hh] at hs
          exact absurd rfl hs
      have h2 := Except.ok.inj h
      rw [← h2]
      unfold getContextValue
      rw [show lookupTok
          ({ inst with contexts := inst.contexts ++ [(tok, vals)] } : InstData).contexts tok =
            some vals from by
        dsimp only
        rw [lookupTok_append_right _ _ _ hnone]
        show (if tok = tok then some vals else lookupTok [] tok) = some vals
        rw [if_pos rfl]]
  · intro inst parents tok vals h
    unfold getContextValue
    rw [h]
  · intro inst parents hb hp
    unfold findNearestSuspenseBoundary
    exact findFromDepth_none parents 1 hp

/-- Instance with a boundary attached to itself but no ancestor boundary,
used by the C10 witness. -/
def c10Inst : InstData := InstData.mk [] true

/-- The instance after it set token 4 in its own setup. -/
def c10Inst2 : InstData := InstData.mk [(4, [8])] true

def c10Parents : Chain := [InstData.mk [] false]

theorem c10_walk_starting_points_witness :
    (getContextValue 4 (c10Inst2 :: c10Parents) = Except.ok [8]) ∧
    (getContextValue 4 [c10Inst2] = Except.ok [8]) ∧
    (findNearestSuspenseBoundary (c10Inst :: c10Parents) = none) :=
  ⟨c10_walk_starting_points.1 c10Inst c10Parents 4 [8] c10Inst2 rfl,
    c10_walk_starting_points.2.1 c10Inst2 [] 4 [8] (by decide),
    c10_walk_starting_points.2.2 c10Inst c10Parents (by decide) (by decide)⟩

end Superfine
